import Mathlib

/-!
# Verification of the similarweb-scraper fetch–normalize core

Shallow embedding of the repository's core pipeline
(`src/extractors/traffic_utils.py`, `src/extractors/similarweb_parser.py`):
domain normalization, the deterministic mock profile generator, the
retry-governed remote fetcher, and the response normalizers, together with
theorems settling the frozen claims about them.

Python strings are modelled as `String` where only holistic operations are
needed and as `List Nat` of code points (`PyStr`) where character-level
manipulation matters (domain normalization).  Python numbers are `Int`
(for `int`) and `ℚ` (for `float`); note that in Python `bool` is a subtype
of `int`, which the numeric predicates below mirror.  JSON payloads are the
`Json` inductive; Python `dict`s are association lists in insertion order.
Raising code is embedded in `Except PyExc`; wall-clock reads are threaded
as explicit `Date`/`DateTime` parameters; the environment and HTTP
transport are explicit function parameters.
-/

set_option maxRecDepth 8000

/-- Python exception kinds that the embedded code can raise. -/
inductive PyExc where
  | valueError
  | typeError
  | attributeError
  | runtimeError
  deriving DecidableEq, Repr

/-- A Python `float`, as an exact unnormalized fraction (every value the
sources compute is dyadic, so this is faithful up to rounding of binary
floats, on which no claim depends).  Kept unnormalized so that all
arithmetic is plain `Int`/`Nat` arithmetic and kernel-reducible. -/
structure PyFloat where
  num : Int
  den : Nat
  deriving DecidableEq, Repr

namespace PyFloat

def ofInt (n : Int) : PyFloat := ⟨n, 1⟩

def add (x y : PyFloat) : PyFloat := ⟨x.num * y.den + y.num * x.den, x.den * y.den⟩

def sub (x y : PyFloat) : PyFloat := ⟨x.num * y.den - y.num * x.den, x.den * y.den⟩

def mul (x y : PyFloat) : PyFloat := ⟨x.num * y.num, x.den * y.den⟩

def divNat (x : PyFloat) (n : Nat) : PyFloat := ⟨x.num, x.den * n⟩

def neg (x : PyFloat) : PyFloat := ⟨-x.num, x.den⟩

/-- Truncation toward zero, as Python `int()` on a float. -/
def trunc (x : PyFloat) : Int :=
  if x.num < 0 then -(x.num.natAbs / x.den : Nat) else (x.num.natAbs / x.den : Nat)

/-- Round half to even, as Python's fixed-point formatting does. -/
def roundHalfEven (x : PyFloat) : Int :=
  let fl := Int.fdiv x.num x.den
  let r := x.num - fl * x.den
  if x.den < 2 * r then fl + 1
  else if 2 * r < (x.den : Int) then fl
  else if fl % 2 = 0 then fl else fl + 1

end PyFloat

/-- JSON values (= structurally valid Python payloads).  Objects are
association lists in insertion order. -/
inductive Json where
  | null
  | bool (b : Bool)
  | int (n : Int)
  | float (q : PyFloat)
  | str (s : String)
  | arr (xs : List Json)
  | obj (kvs : List (String × Json))

/-- First-match lookup in a JSON object; `none` on non-objects. -/
def jsonLookup : Json → String → Option Json
  | .obj kvs, k => kvs.lookup k
  | _, _ => none

/-- `str.split(".")`, as the dotted-path getter uses it
(`path.split(".")` in `_normalize_real_response`). -/
def splitDotAux : List Char → List Char → List String
  | [], acc => [String.mk acc.reverse]
  | c :: rest, acc =>
      if c = '.' then String.mk acc.reverse :: splitDotAux rest []
      else splitDotAux rest (c :: acc)

def splitDot (s : String) : List String := splitDotAux s.data []

/-! ## Python strings as code-point lists (`traffic_utils.normalize_domain`) -/

/-- A Python `str` as its list of Unicode code points. -/
abbrev PyStr := List Nat

/-- Code points of a Lean string literal, for writing concrete inputs. -/
def codesOf (s : String) : PyStr := s.data.map Char.toNat

/-- Back to a Lean `String` (total; invalid code points become the
default character, which never arises on our inputs). -/
def strOfCodes (l : PyStr) : String := String.mk (l.map Char.ofNat)

/-- The code points stripped by Python `str.strip()` (ASCII fragment;
the sources only ever meet ASCII whitespace). -/
def isSpaceCode (n : Nat) : Bool :=
  n = 32 || n = 9 || n = 10 || n = 13 || n = 11 || n = 12

/-- `str.strip()`: drop leading and trailing whitespace. -/
def pyStrip (l : PyStr) : PyStr :=
  ((l.dropWhile isSpaceCode).reverse.dropWhile isSpaceCode).reverse

/-- `str.lower()` on one code point (ASCII fragment). -/
def lowerCode (n : Nat) : Nat := if 65 ≤ n ∧ n ≤ 90 then n + 32 else n

/-- `str.lower()`. -/
def pyLower (l : PyStr) : PyStr := l.map lowerCode

/-- `s.split(pat, 1)[1]` when `pat` occurs in `s`: `some` of everything
after the first occurrence of `pat`, else `none`. -/
def dropThrough (pat : PyStr) : PyStr → Option PyStr
  | [] => if pat = [] then some [] else none
  | c :: rest =>
      if pat.isPrefixOf (c :: rest) then some ((c :: rest).drop pat.length)
      else dropThrough pat rest

/-- `"://"` as code points (58, 47, 47). -/
def schemeSep : PyStr := [58, 47, 47]

/--
`traffic_utils.normalize_domain` (lines 9–20):

```python
if not domain: return ""
d = domain.strip().lower()
if "://" in d: d = d.split("://", 1)[1]
d = d.split("/", 1)[0]
d = d.split("?", 1)[0]
return d
```

`s.split(c, 1)[0]` is the prefix before the first occurrence of `c`,
i.e. `takeWhile (· ≠ c)`; `/` is code 47 and `?` is code 63.
-/
def normalize_domain (domain : PyStr) : PyStr :=
  if domain = [] then []
  else
    let d := pyLower (pyStrip domain)
    let d := match dropThrough schemeSep d with
      | some rest => rest
      | none => d
    let d := d.takeWhile (· ≠ 47)
    let d := d.takeWhile (· ≠ 63)
    d

/-! ## Calendar model (`datetime` fragment used by the sources) -/

/-- A `datetime.date`; the year is an `Int` so day arithmetic is total
(Python's `datetime` is restricted to years 1–9999, which the theorems
assume where it matters). -/
structure Date where
  year : Int
  month : Nat
  day : Nat
  deriving DecidableEq, Repr

/-- A UTC `datetime`: calendar date plus time of day. -/
structure DateTime where
  date : Date
  hour : Nat
  minute : Nat
  second : Nat
  deriving DecidableEq, Repr

/-- Gregorian leap year, as `calendar`/`datetime` define it. -/
def isLeap (y : Int) : Bool := (y % 4 = 0 && y % 100 ≠ 0) || y % 400 = 0

/-- Days in a month. -/
def monthLen (y : Int) (m : Nat) : Nat :=
  if m = 2 then (if isLeap y then 29 else 28)
  else if m = 4 ∨ m = 6 ∨ m = 9 ∨ m = 11 then 30
  else 31

/-- The previous calendar day. -/
def prevDay (d : Date) : Date :=
  if 2 ≤ d.day then ⟨d.year, d.month, d.day - 1⟩
  else if 2 ≤ d.month then ⟨d.year, d.month - 1, monthLen d.year (d.month - 1)⟩
  else ⟨d.year - 1, 12, 31⟩

/-- `date - timedelta(days=n)`. -/
def subDays : Date → Nat → Date
  | d, 0 => d
  | d, n + 1 => subDays (prevDay d) n

/-- `date.replace(day=1)`. -/
def replaceDay1 (d : Date) : Date := ⟨d.year, d.month, 1⟩

/-- Decimal digit as a character. -/
def digitChar : Nat → Char
  | 0 => '0' | 1 => '1' | 2 => '2' | 3 => '3' | 4 => '4'
  | 5 => '5' | 6 => '6' | 7 => '7' | 8 => '8' | 9 => '9'
  | _ => '*'

/-- Four-digit zero-padded decimal (`%Y` for the `datetime` year range
0–9999). -/
def pad4 (y : Nat) : List Char :=
  [digitChar (y / 1000), digitChar (y / 100 % 10),
   digitChar (y / 10 % 10), digitChar (y % 10)]

/-- Two-digit zero-padded decimal (`%m`, `%d`, `%H`, `%M`, `%S`). -/
def pad2 (m : Nat) : List Char := [digitChar (m / 10), digitChar (m % 10)]

/-- `month_date.strftime("%Y-%m-01")`. -/
def fmtMonth (d : Date) : String :=
  String.mk (pad4 d.year.toNat ++ '-' :: pad2 d.month ++ ['-', '0', '1'])

/-- `datetime.now(timezone.utc).isoformat(timespec="seconds")`
(`traffic_utils.utc_now_iso`). -/
def utc_now_iso (t : DateTime) : String :=
  String.mk (pad4 t.date.year.toNat ++ '-' :: pad2 t.date.month ++
    '-' :: pad2 t.date.day ++ 'T' :: pad2 t.hour ++ ':' :: pad2 t.minute ++
    ':' :: pad2 t.second ++ ['+', '0', '0', ':', '0', '0'])

/-- Linearization of the (year, month) pair: strictly monotone in the
calendar order while months stay in 1..12. -/
def ymIdx (d : Date) : Int := 12 * d.year + d.month

/-! ## Python value semantics -/

/-- Python truthiness (`bool(v)` / use in `or` and `if`). -/
def pyTruthy : Json → Bool
  | .null => false
  | .bool b => b
  | .int n => n ≠ 0
  | .float q => q.num ≠ 0
  | .str s => s ≠ ""
  | .arr xs => !xs.isEmpty
  | .obj kvs => !kvs.isEmpty

/-- `isinstance(v, (int, float))`.  In Python `bool` is a subclass of
`int`, so booleans satisfy this check. -/
def isNumber : Json → Bool
  | .bool _ => true
  | .int _ => true
  | .float _ => true
  | _ => false

/-- `int(v)` for `v` already known numeric (bool/int/float). -/
def pyIntNum : Json → Int
  | .bool b => if b then 1 else 0
  | .int n => n
  | .float q => q.trunc
  | _ => 0

/-- `float(v)` for `v` already known numeric (bool/int/float). -/
def pyFloatNum : Json → PyFloat
  | .bool b => if b then ⟨1, 1⟩ else ⟨0, 1⟩
  | .int n => ⟨n, 1⟩
  | .float q => q
  | _ => ⟨0, 1⟩

/-- Python `a or b` (short-circuit on truthiness, value-returning). -/
def pyOr (a b : Json) : Json := if pyTruthy a then a else b

/-- `d[k] = v` on a Python dict: update in place if the key exists,
else append (insertion order preserved). -/
def pyDictInsert {α : Type} : List (String × α) → String → α → List (String × α)
  | [], k, v => [(k, v)]
  | (k0, v0) :: t, k, v =>
      if k0 = k then (k0, v) :: t else (k0, v0) :: pyDictInsert t k v

def Json.isNull : Json → Bool
  | .null => true
  | _ => false

def Json.isObj : Json → Bool
  | .obj _ => true
  | _ => false

/-- Drop one key from a JSON object (for comparing records up to a field). -/
def eraseField (j : Json) (k : String) : Json :=
  match j with
  | .obj kvs => .obj (kvs.filter (fun kv => !(kv.1 == k)))
  | v => v

/-- `cur.get(part)` where `cur` must be a dict (`AttributeError`
otherwise); a missing key yields Python `None` (= `Json.null`). -/
def pyGet (v : Json) (k : String) : Except PyExc Json :=
  match v with
  | .obj kvs => .ok ((kvs.lookup k).getD .null)
  | _ => .error .attributeError

/-- `cur.get(part, default)`: the stored value when the key is present
(even if it is `None`), the default when it is missing. -/
def pyGetD (v : Json) (k : String) (dflt : Json) : Except PyExc Json :=
  match v with
  | .obj kvs => .ok ((kvs.lookup k).getD dflt)
  | _ => .error .attributeError

/--
The walk of the dotted-path getter `g` in `_normalize_real_response`
(lines 167–175): from `cur`, successively `cur = cur.get(part)`; `none`
when some intermediate `cur` is not a dict (the early `return default`).
-/
def gAux (cur : Json) : List String → Option Json
  | [] => some cur
  | p :: ps =>
      match cur with
      | .obj kvs => gAux ((kvs.lookup p).getD .null) ps
      | _ => none

/-- The dotted-path getter `g` itself: split the path on `"."`, walk,
and return the default when the walk broke off or ended on `None`. -/
def g (raw : Json) (path : String) (default : Json) : Json :=
  match gAux raw (splitDot path) with
  | some v => if v.isNull then default else v
  | none => default

/-! ## Numeric parsing and rendering (`float(v)`, `int(v)`, f-strings) -/

def isSpaceChar (c : Char) : Bool := isSpaceCode c.toNat

/-- Value of a digit string. -/
def digitsVal (ds : List Char) : Nat :=
  ds.foldl (fun a c => a * 10 + (c.toNat - 48)) 0

/-- `int(s)` on a string: surrounding whitespace, an optional sign and a
nonempty run of digits (the fragment the sources can meet; `int("5.5")`
raises in Python and parses to `none` here). -/
def parseIntStr (s : String) : Option Int :=
  let l := ((s.data.dropWhile isSpaceChar).reverse.dropWhile isSpaceChar).reverse
  let (sign, l) : Int × List Char :=
    match l with
    | '-' :: t => (-1, t)
    | '+' :: t => (1, t)
    | t => (1, t)
  if l ≠ [] ∧ l.all Char.isDigit then some (sign * digitsVal l) else none

/-- `float(s)` on a string: optional sign, decimal digits with an
optional fractional part, and an optional exponent. -/
def parseFloatStr (s : String) : Option PyFloat :=
  let l := ((s.data.dropWhile isSpaceChar).reverse.dropWhile isSpaceChar).reverse
  let (sign, l) : Int × List Char :=
    match l with
    | '-' :: t => (-1, t)
    | '+' :: t => (1, t)
    | t => (1, t)
  let ip := l.takeWhile Char.isDigit
  let l := l.dropWhile Char.isDigit
  let (fp, l) : List Char × List Char :=
    match l with
    | '.' :: t => (t.takeWhile Char.isDigit, t.dropWhile Char.isDigit)
    | t => ([], t)
  if ip = [] ∧ fp = [] then none
  else
    let mant : PyFloat := ⟨sign * (digitsVal ip * 10 ^ fp.length + digitsVal fp), 10 ^ fp.length⟩
    match l with
    | [] => some mant
    | e :: t =>
        if e = 'e' ∨ e = 'E' then
          let (eneg, t) : Bool × List Char :=
            match t with
            | '-' :: t2 => (true, t2)
            | '+' :: t2 => (false, t2)
            | t2 => (false, t2)
          if t ≠ [] ∧ t.all Char.isDigit then
            some (if eneg then mant.divNat (10 ^ digitsVal t)
                  else mant.mul ⟨(10 : Int) ^ digitsVal t, 1⟩)
          else none
        else none

/-- `float(v)`: booleans and numbers coerce, strings parse, anything
else raises `TypeError` (or `ValueError` for an unparsable string). -/
def pyFloatOf : Json → Except PyExc PyFloat
  | .bool b => .ok (if b then ⟨1, 1⟩ else ⟨0, 1⟩)
  | .int n => .ok ⟨n, 1⟩
  | .float q => .ok q
  | .str s =>
      match parseFloatStr s with
      | some q => .ok q
      | none => .error .valueError
  | _ => .error .typeError

/-- `int(v)`. -/
def pyIntOf : Json → Except PyExc Int
  | .bool b => .ok (if b then 1 else 0)
  | .int n => .ok n
  | .float q => .ok q.trunc
  | .str s =>
      match parseIntStr s with
      | some n => .ok n
      | none => .error .valueError
  | _ => .error .typeError

/-- `f"{q:.{prec}f}"`: fixed-point rendering with `prec` digits. -/
def formatFixed (q : PyFloat) (prec : Nat) : String :=
  let n := PyFloat.roundHalfEven ⟨q.num * 10 ^ prec, q.den⟩
  let a := n.natAbs
  let ip := a / 10 ^ prec
  let fp := a % 10 ^ prec
  let fpStr := Nat.repr fp
  let pad := String.mk (List.replicate (prec - fpStr.length) '0')
  (if n < 0 then "-" else "") ++ Nat.repr ip ++ "." ++ pad ++ fpStr

/-- `str(v)`.  Exact for the scalar values the sources feed it; the
rendering of containers and non-dyadic floats is not depended on by any
claim. -/
def pyStrOf : Json → String
  | .str s => s
  | .int n => toString n
  | .null => "None"
  | .bool b => if b then "True" else "False"
  | .float q => if q.den = 1 then toString q.num ++ ".0" else formatFixed q 6
  | .arr _ => "[...]"
  | .obj _ => "{...}"

/-- `str.title()` on the ASCII fragment: a letter is uppercased after a
non-letter and lowercased after a letter. -/
def pyTitleAux : List Char → Bool → List Char
  | [], _ => []
  | c :: rest, prevAlpha =>
      if c.isAlpha then
        (if prevAlpha then c.toLower else c.toUpper) :: pyTitleAux rest true
      else c :: pyTitleAux rest false

def pyTitle (s : String) : String := String.mk (pyTitleAux s.data false)

/-! ## SHA-256 (`hashlib.sha256`, the primitive behind
`traffic_utils._hash_to_int`) -/

/-- Wrap to 32 bits. -/
def w32 (n : Nat) : Nat := n % 4294967296

/-- Rotate a 32-bit word right by `n`. -/
def rotr32 (x n : Nat) : Nat := w32 ((x >>> n) ||| (x <<< (32 - n)))

/-- UTF-8 encoding of a list of code points (`str.encode("utf-8")`). -/
def utf8Bytes : List Nat → List Nat
  | [] => []
  | c :: rest =>
      (if c < 128 then [c]
       else if c < 2048 then [192 + c / 64, 128 + c % 64]
       else if c < 65536 then [224 + c / 4096, 128 + c / 64 % 64, 128 + c % 64]
       else [240 + c / 262144, 128 + c / 4096 % 64, 128 + c / 64 % 64, 128 + c % 64])
        ++ utf8Bytes rest

/-- `count` bytes of `v`, big-endian. -/
def beBytes : Nat → Nat → List Nat
  | 0, _ => []
  | k + 1, v => beBytes k (v / 256) ++ [v % 256]

/-- SHA-256 message padding: `0x80`, zeros to 56 mod 64, then the bit
length in 8 big-endian bytes. -/
def shaPad (msg : List Nat) : List Nat :=
  msg ++ 128 :: List.replicate ((119 - msg.length % 64) % 64) 0 ++ beBytes 8 (8 * msg.length)

/-- Big-endian 32-bit words from bytes. -/
def bytesToWords : List Nat → List Nat
  | b0 :: b1 :: b2 :: b3 :: rest =>
      (((b0 * 256 + b1) * 256 + b2) * 256 + b3) :: bytesToWords rest
  | _ => []

/-- Split into 64-byte chunks (structural on a fuel bound so the kernel
can evaluate it). -/
def chunks64Fuel : Nat → List Nat → List (List Nat)
  | 0, _ => []
  | _, [] => []
  | fuel + 1, b :: rest => ((b :: rest).take 64) :: chunks64Fuel fuel ((b :: rest).drop 64)

def chunks64 (l : List Nat) : List (List Nat) := chunks64Fuel l.length l

/-- The SHA-256 round constants (FIPS 180-4, in decimal). -/
def shaK : List Nat :=
  [1116352408, 1899447441, 3049323471, 3921009573,
   961987163, 1508970993, 2453635748, 2870763221,
   3624381080, 310598401, 607225278, 1426881987,
   1925078388, 2162078206, 2614888103, 3248222580,
   3835390401, 4022224774, 264347078, 604807628,
   770255983, 1249150122, 1555081692, 1996064986,
   2554220882, 2821834349, 2952996808, 3210313671,
   3336571891, 3584528711, 113926993, 338241895,
   666307205, 773529912, 1294757372, 1396182291,
   1695183700, 1986661051, 2177026350, 2456956037,
   2730485921, 2820302411, 3259730800, 3345764771,
   3516065817, 3600352804, 4094571909, 275423344,
   430227734, 506948616, 659060556, 883997877,
   958139571, 1322822218, 1537002063, 1747873779,
   1955562222, 2024104815, 2227730452, 2361852424,
   2428436474, 2756734187, 3204031479, 3329325298]

/-- The SHA-256 initial hash state (FIPS 180-4, in decimal). -/
def shaH0 : List Nat :=
  [1779033703, 3144134277, 1013904242, 2773480762,
   1359893119, 2600822924, 528734635, 1541459225]

/-- Extend 16 message-schedule words to 64. -/
def extendW (w0 : List Nat) : List Nat :=
  (List.range 48).foldl
    (fun w i =>
      let j := i + 16
      let x15 := w.getD (j - 15) 0
      let x2 := w.getD (j - 2) 0
      let s0 := rotr32 x15 7 ^^^ rotr32 x15 18 ^^^ (x15 >>> 3)
      let s1 := rotr32 x2 17 ^^^ rotr32 x2 19 ^^^ (x2 >>> 10)
      w ++ [w32 (w.getD (j - 16) 0 + s0 + w.getD (j - 7) 0 + s1)])
    w0

/-- One SHA-256 compression step over a 64-byte chunk. -/
def shaCompress (h : List Nat) (chunk : List Nat) : List Nat :=
  let w := extendW (bytesToWords chunk)
  let st :=
    (List.range 64).foldl
      (fun (st : Nat × Nat × Nat × Nat × Nat × Nat × Nat × Nat) i =>
        let (a, b, c, d, e, f, gg, hh) := st
        let s1 := rotr32 e 6 ^^^ rotr32 e 11 ^^^ rotr32 e 25
        let ch := (e &&& f) ^^^ ((e ^^^ 4294967295) &&& gg)
        let t1 := w32 (hh + s1 + ch + shaK.getD i 0 + w.getD i 0)
        let s0 := rotr32 a 2 ^^^ rotr32 a 13 ^^^ rotr32 a 22
        let maj := (a &&& b) ^^^ (a &&& c) ^^^ (b &&& c)
        let t2 := w32 (s0 + maj)
        (w32 (t1 + t2), a, b, c, w32 (d + t1), e, f, gg))
      (h.getD 0 0, h.getD 1 0, h.getD 2 0, h.getD 3 0,
       h.getD 4 0, h.getD 5 0, h.getD 6 0, h.getD 7 0)
  match st with
  | (a, b, c, d, e, f, gg, hh) =>
      [w32 (h.getD 0 0 + a), w32 (h.getD 1 0 + b), w32 (h.getD 2 0 + c),
       w32 (h.getD 3 0 + d), w32 (h.getD 4 0 + e), w32 (h.getD 5 0 + f),
       w32 (h.getD 6 0 + gg), w32 (h.getD 7 0 + hh)]

/-- SHA-256 digest (32 bytes) of a byte list. -/
def sha256 (msg : List Nat) : List Nat :=
  ((chunks64 (shaPad msg)).foldl shaCompress shaH0).foldr
    (fun h acc => beBytes 4 h ++ acc) []

/--
`traffic_utils._hash_to_int` (lines 28–30): the first 12 hex digits of
the SHA-256 hex digest of the UTF-8 encoding, as a big-endian integer —
equivalently the first 6 digest bytes big-endian.
-/
def hash_to_int (codes : PyStr) : Nat :=
  ((sha256 (utf8Bytes codes)).take 6).foldl (fun a b => a * 256 + b) 0

/--
`traffic_utils._pseudo_random_float` (lines 32–42): one LCG step
(a = 1664525, c = 1013904223, m = 2³²) on the seed, scaled into
`[minimum, maximum]`.
-/
def pseudo_random_float (seed : Nat) (minimum maximum : PyFloat) : PyFloat :=
  let value := (1664525 * seed + 1013904223) % 4294967296
  minimum.add ((maximum.sub minimum).mul ⟨value, 4294967296⟩)

/-! ## Mock profile generation -/

/--
Modelled from the spec: the tail of `traffic_utils._build_estimated_visits`
(the decay update of `current` inside the loop and the `return visits`) is
absent from the sources, which break off at line 59; §4.2 step 3 prescribes
visit counts "generally decaying moving backward from a base visit value",
with no concrete factor, so a fixed decay factor stands in here.
-/
def decayFactor : PyFloat := ⟨85, 100⟩

/-- `(today.replace(day=1) - timedelta(days=30*i)).replace(day=1)`
rendered with `strftime("%Y-%m-01")` — one entry of the `months` list in
`_build_estimated_visits`. -/
def monthKey (today : Date) (i : Nat) : String :=
  fmtMonth (replaceDay1 (subDays (replaceDay1 today) (30 * i)))

/--
`traffic_utils._build_estimated_visits` (lines 44–59):

```python
today = datetime.now(timezone.utc)
months = []
for i in range(2, -1, -1):
    month_date = (today.replace(day=1) - timedelta(days=30 * i)).replace(day=1)
    months.append(month_date.strftime("%Y-%m-01"))
visits = {}
current = base
for key in months[::-1]:
    visits[key] = max(1000, int(current))
```

The wall clock is the explicit `today` parameter.  The loop iterates
`months[::-1]`, i.e. the reversed list, inserting the current month
first.  The loop body's decay update and the final `return visits` are
modelled from the spec (see `decayFactor`).
-/
def build_estimated_visits (base : Int) (today : Date) : List (String × Int) :=
  let months := [2, 1, 0].map (monthKey today)
  (months.reverse.foldl
    (fun (st : List (String × Int) × PyFloat) key =>
      (pyDictInsert st.1 key (max 1000 st.2.trunc), st.2.mul decayFactor))
    ([], ⟨base, 1⟩)).1

/-- The raw mock profile (spec §3 `RawMockProfile`), keyed by the fields
`_normalize_mock_response` reads. -/
structure MockProfile where
  domain : String
  title : String
  description : String
  category : String
  screenshot : String
  global_rank : Int
  country_rank : Int
  category_rank : String
  estimated_monthly_visits : List (String × Int)
  bounce_rate : PyFloat
  pages_per_visit : PyFloat
  visits : Int
  time_on_site : PyFloat
  top_country_shares : Json
  traffic_sources : Json
  top_keywords : Json
  competitors : Json

/--
Modelled from the spec: `traffic_utils.generate_mock_profile` is absent
from the sources (it is imported and called by
`similarweb_parser.get_domain_data` but the defining file breaks off
before it).  Per §4.2: a 48-bit seed from SHA-256 of the canonical domain
(`hash_to_int`, which is in the sources), per-field LCG draws from
distinct derived seeds (`seed + offset`) in per-metric ranges, a 3-month
estimated-visits history anchored to the first of the current month, a
fixed channel set for traffic sources, and deterministic synthetic
keywords and competitors.  The concrete ranges and labels are
illustrative; no claim depends on them.
-/
def generate_mock_profile (codes : PyStr) (today : Date) : MockProfile :=
  let domain := strOfCodes codes
  let seed := hash_to_int codes
  let prf := fun (off : Nat) (lo hi : Int) =>
    pseudo_random_float (seed + off) ⟨lo, 1⟩ ⟨hi, 1⟩
  let visits := (prf 7 10000 5000000).trunc
  { domain := domain
    title := "Website " ++ domain
    description := "Analytics profile for " ++ domain
    category := ["news", "shopping", "technology", "finance",
      "entertainment"].getD (seed % 5) "news"
    screenshot := "https://screenshots.example/" ++ domain ++ ".png"
    global_rank := (prf 1 1000 1000000).trunc
    country_rank := (prf 2 100 100000).trunc
    category_rank := toString (prf 3 1 5000).trunc
    estimated_monthly_visits := build_estimated_visits visits today
    bounce_rate := pseudo_random_float (seed + 4) ⟨2, 10⟩ ⟨7, 10⟩
    pages_per_visit := pseudo_random_float (seed + 5) ⟨1, 1⟩ ⟨10, 1⟩
    visits := visits
    time_on_site := pseudo_random_float (seed + 6) ⟨30, 1⟩ ⟨600, 1⟩
    top_country_shares := .arr (["US", "GB", "DE", "IN"].enum.map
      (fun ci => .obj [("CountryCode", .str ci.2),
        ("Value", .float (pseudo_random_float (seed + 8 + ci.1) ⟨1, 100⟩ ⟨4, 10⟩))]))
    traffic_sources := .obj (["direct", "search", "social", "referral",
      "mail"].enum.map
      (fun ci => (ci.2, .float (pseudo_random_float (seed + 12 + ci.1) ⟨1, 100⟩ ⟨6, 10⟩))))
    top_keywords := .arr ([" review", " pricing", " login"].enum.map
      (fun ki => .obj [("name", .str (domain ++ ki.2)),
        ("value", .int (prf (17 + ki.1) 100 50000).trunc),
        ("cpc", .float (pseudo_random_float (seed + 20 + ki.1) ⟨1, 10⟩ ⟨5, 1⟩))]))
    competitors := .arr ((List.range 3).map
      (fun i => .str ("competitor" ++ toString ((seed + i) % 100) ++ ".com"))) }

/--
`SimilarwebParser._normalize_mock_response` (lines 133–157), with the
`utc_now_iso()` wall-clock read threaded as `now`.
-/
def normalize_mock_response (raw : MockProfile) (now : DateTime) : Json :=
  .obj [
    ("domain", .str raw.domain),
    ("snapshotDate", .str (utc_now_iso now)),
    ("title", .str raw.title),
    ("description", .str raw.description),
    ("category", .str raw.category),
    ("screenshot", .str raw.screenshot),
    ("globalRank", .int raw.global_rank),
    ("countryRank", .int raw.country_rank),
    ("categoryRank", .str raw.category_rank),
    ("estimatedMonthlyVisits",
      .obj (raw.estimated_monthly_visits.map (fun kv => (kv.1, Json.int kv.2)))),
    ("bounceRate", .str (formatFixed raw.bounce_rate 4)),
    ("pagesPerVisit", .str (formatFixed raw.pages_per_visit 2)),
    ("visits", .str (toString raw.visits)),
    ("timeOnSite", .str (formatFixed raw.time_on_site 2)),
    ("topCountryShares", raw.top_country_shares),
    ("trafficSources", raw.traffic_sources),
    ("topKeywords", raw.top_keywords),
    ("isDataFromGA", .bool false),
    ("competitors", raw.competitors)]

/-! ## Remote response normalization (`_normalize_real_response`) -/

/--
Lines 177–181: `traffic.estimated_monthly_visits`, `or {}`, then the dict
comprehension keeping numeric values (`str(k)` is the identity on JSON
object keys), coercing with `int(v)`.  Iterating `.items()` of a truthy
non-dict raises.
-/
def normVisits (raw : Json) : Except PyExc (List (String × Json)) :=
  let ev := pyOr (g raw "traffic.estimated_monthly_visits" (.obj [])) (.obj [])
  match ev with
  | .obj kvs =>
      .ok (kvs.foldl (fun acc kv =>
        if isNumber kv.2 then pyDictInsert acc kv.1 (.int (pyIntNum kv.2)) else acc) [])
  | _ => .error .attributeError

/-- A Python `for` loop over a list, threading an accumulator and
propagating the first raised exception. -/
def foldE {σ α : Type} (step : σ → α → Except PyExc σ) : σ → List α → Except PyExc σ
  | acc, [] => .ok acc
  | acc, x :: t =>
      match step acc x with
      | .ok acc2 => foldE step acc2 t
      | .error e => .error e

/-- One iteration of the `top_countries` loop (lines 185–194): `.get` on
a non-dict entry raises. -/
def countryStep (acc : List Json) (c : Json) : Except PyExc (List Json) := do
  let code ← pyGet c "country_code"
  let value ← pyGet c "share"
  pure (if pyTruthy code && isNumber value then
      acc ++ [Json.obj [("CountryCode", code), ("Value", .float (pyFloatNum value))]]
    else acc)

def normCountries (raw : Json) : Except PyExc (List Json) :=
  let tc := pyOr (g raw "audience.top_countries" (.arr [])) (.arr [])
  match tc with
  | .arr cs => foldE countryStep [] cs
  | _ => .error .typeError

/--
Lines 196–201: `traffic.sources`, `or {}`, keep numeric values under the
title-cased key.
-/
def normSources (raw : Json) : Except PyExc (List (String × Json)) :=
  let ts := pyOr (g raw "traffic.sources" (.obj [])) (.obj [])
  match ts with
  | .obj kvs =>
      .ok (kvs.foldl (fun acc kv =>
        if isNumber kv.2 then pyDictInsert acc (pyTitle kv.1) (.float (pyFloatNum kv.2))
        else acc) [])
  | _ => .error .attributeError

/--
One iteration of the `top_keywords` loop (lines 205–216):
`name = kw.get("keyword") or kw.get("name")`,
`value = kw.get("visits") or kw.get("value")`,
`cpc = kw.get("cpc") or 0.0`; kept when `name` is truthy and `value`
numeric, with `int(value)` and `float(cpc)` coercions (the latter can
raise on a non-numeric truthy `cpc`).
-/
def keywordStep (acc : List Json) (kw : Json) : Except PyExc (List Json) := do
  let kwKeyword ← pyGet kw "keyword"
  let kwName ← pyGet kw "name"
  let name := pyOr kwKeyword kwName
  let kwVisits ← pyGet kw "visits"
  let kwValue ← pyGet kw "value"
  let value := pyOr kwVisits kwValue
  let kwCpc ← pyGet kw "cpc"
  let cpc := pyOr kwCpc (.float ⟨0, 1⟩)
  if pyTruthy name && isNumber value then do
    let c ← pyFloatOf cpc
    pure (acc ++ [Json.obj [("name", name), ("value", .int (pyIntNum value)),
      ("cpc", .float c)]])
  else pure acc

def normKeywords (raw : Json) : Except PyExc (List Json) :=
  let tk := pyOr (g raw "traffic.top_keywords" (.arr [])) (.arr [])
  match tk with
  | .arr kws => foldE keywordStep [] kws
  | _ => .error .typeError

/--
Lines 218–224: `g("ranking.country") or {}` and the three
two-argument `.get`s building the structured country rank.
-/
def normCountryRank (raw : Json) : Except PyExc Json := do
  let cr := pyOr (g raw "ranking.country" .null) (.obj [])
  let name ← pyGetD cr "name" (.str "")
  let code ← pyGetD cr "code" (.str "")
  let rank ← pyGetD cr "rank" (.int 0)
  pure (.obj [("Country", name), ("CountryCode", code), ("Rank", rank)])

/--
`SimilarwebParser._normalize_real_response` (lines 159–249), with the
`utc_now_iso()` read threaded as `now`.  The steps run in the source's
evaluation order (line 165, the comprehension blocks 177–224, then the
result dict literal's entries 229–245), so the first raising step
determines the exception, as in Python.
-/
def normalize_real_response (domain : String) (now : DateTime) (raw : Json) :
    Except PyExc Json := do
  let overview ← pyGetD raw "overview" (.obj [])
  let visitsMap ← normVisits raw
  let countries ← normCountries raw
  let sources ← normSources raw
  let keywords ← normKeywords raw
  let countryRank ← normCountryRank raw
  let t ← pyGet overview "title"
  let title := pyOr t (pyOr (g raw "meta.title" .null) (.str ""))
  let de ← pyGet overview "description"
  let description := pyOr de (pyOr (g raw "meta.description" .null) (.str ""))
  let bounce ← pyFloatOf (g raw "engagement.bounce_rate" (.float ⟨0, 1⟩))
  let pages ← pyFloatOf (g raw "engagement.pages_per_visit" (.float ⟨0, 1⟩))
  let vis ← pyIntOf (g raw "engagement.visits" (.int 0))
  let tos ← pyFloatOf (g raw "engagement.time_on_site" (.float ⟨0, 1⟩))
  pure (.obj [
    ("domain", .str domain),
    ("snapshotDate", .str (utc_now_iso now)),
    ("title", title),
    ("description", description),
    ("category", pyOr (g raw "classification.category" .null) (.str "")),
    ("screenshot", pyOr (g raw "meta.screenshot_url" .null) (.str "")),
    ("globalRank", g raw "ranking.global.rank" (.int 0)),
    ("countryRank", countryRank),
    ("categoryRank", .str (pyStrOf (g raw "ranking.category.rank" (.str "")))),
    ("estimatedMonthlyVisits", .obj visitsMap),
    ("bounceRate", .str (formatFixed bounce 4)),
    ("pagesPerVisit", .str (formatFixed pages 2)),
    ("visits", .str (toString vis)),
    ("timeOnSite", .str (formatFixed tos 2)),
    ("topCountryShares", .arr countries),
    ("trafficSources", .obj sources),
    ("topKeywords", .arr keywords),
    ("isDataFromGA", .bool (pyTruthy (g raw "meta.is_from_ga" (.bool false)))),
    ("competitors", g raw "competition.competitors" (.arr []))])

/-! ## Remote fetching (`_fetch_raw_data`) -/

/-- The outcome the transport produces for one attempt: an HTTP response
with a parsed body, or a raised transport error (a 2xx response whose
body fails to parse also lands in `err`, exactly as the `try` block
catches it). -/
inductive TResult where
  | resp (status : Nat) (body : Json)
  | err (e : PyExc)

/-- `self.backoff_factor * (2 ** (attempt - 1))`
(`_sleep_with_backoff`, lines 125–129). -/
def backoffDelay (backoff : PyFloat) (attempt : Nat) : PyFloat :=
  backoff.mul ⟨(2 : Int) ^ (attempt - 1), 1⟩

/--
The retry loop of `_fetch_raw_data` (lines 95–123), returning
`(outcome, sleeps performed, attempts made)`.  `fuel` only bounds the
structural recursion; `fetch_raw_data` enters with `fuel = maxRetries + 1`,
so fuel never runs out before `attempt` exceeds `maxRetries` and the
`fuel = 0` arm coincides with the loop-exhausted exit.

```python
last_exc = None
for attempt in range(1, self.max_retries + 1):
    try:
        resp = requests.get(...)
        if 200 <= resp.status_code < 300: return resp.json()
        # non-success: log, fall through
    except Exception as exc:
        last_exc = exc
    if attempt < self.max_retries:
        self._sleep_with_backoff(attempt)
if last_exc: raise last_exc
raise RuntimeError(...)
```
-/
def fetchLoop (tr : Nat → TResult) (maxRetries : Nat) (backoff : PyFloat) :
    Nat → Nat → Option PyExc → Except PyExc Json × List PyFloat × Nat
  | 0, _, lastExc =>
      (.error (match lastExc with | some e => e | none => .runtimeError), [], 0)
  | fuel + 1, attempt, lastExc =>
      if maxRetries < attempt then
        (.error (match lastExc with | some e => e | none => .runtimeError), [], 0)
      else
        match tr attempt with
        | .resp s b =>
            if 200 ≤ s ∧ s < 300 then (.ok b, [], 1)
            else
              let rest := fetchLoop tr maxRetries backoff fuel (attempt + 1) lastExc
              (rest.1,
               (if attempt < maxRetries then [backoffDelay backoff attempt] else [])
                 ++ rest.2.1,
               rest.2.2 + 1)
        | .err e =>
            let rest := fetchLoop tr maxRetries backoff fuel (attempt + 1) (some e)
            (rest.1,
             (if attempt < maxRetries then [backoffDelay backoff attempt] else [])
               ++ rest.2.1,
             rest.2.2 + 1)

/--
`SimilarwebParser._fetch_raw_data` (lines 75–123): raises `RuntimeError`
when the credential is falsy (lines 83–87), else runs the retry loop
from attempt 1.
-/
def fetch_raw_data (tr : Nat → TResult) (maxRetries : Nat) (backoff : PyFloat)
    (apiKey : Option String) : Except PyExc Json × List PyFloat × Nat :=
  match apiKey with
  | none => (.error .runtimeError, [], 0)
  | some k =>
      if k = "" then (.error .runtimeError, [], 0)
      else fetchLoop tr maxRetries backoff (maxRetries + 1) 1 none

/-! ## The public entry point (`get_domain_data`) -/

/-- The constructor configuration of `SimilarwebParser` that the claims
touch. -/
structure Config where
  use_mock_data : Bool
  api_key_env : String
  max_retries : Nat
  backoff_factor : PyFloat

/-- Observable side effects of one `get_domain_data` call: the backoff
sleeps performed, HTTP attempts made, warnings logged, and mock profiles
generated. -/
structure Effects where
  sleeps : List PyFloat
  attempts : Nat
  warnings : Nat
  mocks : Nat
  deriving DecidableEq, Repr

/-- Python truthiness of `os.environ.get(var)`: set and non-empty. -/
def envTruthy : Option String → Bool
  | some s => s ≠ ""
  | none => false

/--
`SimilarwebParser.get_domain_data` (lines 45–61) with `_has_api_key`
(lines 65–73) inlined as the two `else if` branches of the short-circuit
`self.use_mock_data or not self._has_api_key()` — `_has_api_key` runs
(and logs its warning) only when `use_mock_data` is false.  The
environment, transport and wall clock are explicit parameters.
-/
def get_domain_data (cfg : Config) (env : String → Option String)
    (tr : Nat → TResult) (now : DateTime) (domain : String) :
    Except PyExc Json × Effects :=
  let clean := normalize_domain (codesOf domain)
  if clean = [] then (.error .valueError, ⟨[], 0, 0, 0⟩)
  else if cfg.use_mock_data then
    (.ok (normalize_mock_response (generate_mock_profile clean now.date) now),
     ⟨[], 0, 0, 1⟩)
  else if !envTruthy (env cfg.api_key_env) then
    (.ok (normalize_mock_response (generate_mock_profile clean now.date) now),
     ⟨[], 0, 1, 1⟩)
  else
    let r := fetch_raw_data tr cfg.max_retries cfg.backoff_factor (env cfg.api_key_env)
    match r.1 with
    | .ok raw =>
        (normalize_real_response (strOfCodes clean) now raw, ⟨r.2.1, r.2.2, 0, 0⟩)
    | .error e => (.error e, ⟨r.2.1, r.2.2, 0, 0⟩)

/-! ### Keyword-rule helpers (C5) -/

/-- The keyword name as the amended claim words it: `kw["keyword"]` if
truthy, else `kw["name"]`. -/
def kwNameOf (kw : Json) : Json :=
  pyOr ((jsonLookup kw "keyword").getD .null) ((jsonLookup kw "name").getD .null)

/-- The keyword value: `kw["visits"]` if truthy, else `kw["value"]`. -/
def kwValueOf (kw : Json) : Json :=
  pyOr ((jsonLookup kw "visits").getD .null) ((jsonLookup kw "value").getD .null)

/-- The cpc: `kw["cpc"]` if truthy, else `0.0`. -/
def kwCpcOf (kw : Json) : Json :=
  pyOr ((jsonLookup kw "cpc").getD .null) (.float ⟨0, 1⟩)

/-- Kept iff the name is truthy and the value numeric. -/
def keptKeyword (kw : Json) : Bool :=
  pyTruthy (kwNameOf kw) && isNumber (kwValueOf kw)

/-- The amended claim's keeping rule for one `top_keywords` entry,
stated independently of the implementation (to be proved equal to it). -/
def keepKeyword (kw : Json) : Option Json :=
  if keptKeyword kw then
    some (.obj [("name", kwNameOf kw), ("value", .int (pyIntNum (kwValueOf kw))),
      ("cpc", .float (match pyFloatOf (kwCpcOf kw) with
        | .ok c => c
        | .error _ => ⟨0, 1⟩))])
  else none

/-- Whether an embedded Python expression ran without raising. -/
def isOkB {ε α : Type} : Except ε α → Bool
  | .ok _ => true
  | .error _ => false

/-- Project the `topKeywords` field out of a normalization outcome. -/
def topKeywordsOf (res : Except PyExc Json) : Option Json :=
  match res with
  | .ok r => jsonLookup r "topKeywords"
  | .error _ => none

/-- A `top_keywords` entry with a name but no numeric value — the claim
says it is kept, the code drops it. -/
def c5payload : Json :=
  .obj [("traffic", .obj [("top_keywords", .arr [.obj [("name", .str "x")]])])]

/-- Two keyword entries: one with both name and numeric value, one with
only a name. -/
def kwsW : List Json :=
  [.obj [("keyword", .str "k"), ("visits", .int 5)], .obj [("name", .str "x")]]

/-! ### Well-shapedness for remote normalization (C3) -/

/-- The payload conditions under which `_normalize_real_response` cannot
raise: the payload is an object; a present `overview` is an object; the
`or`-guarded `estimated_monthly_visits`, `sources` and `ranking.country`
extractions are objects; `top_countries` and `top_keywords` are (after
the `or []` guard) arrays of objects, with convertible cpc on kept
keyword entries; and the four `engagement` leaves convert with
`float()`/`int()`. -/
def wellShaped (raw : Json) : Bool :=
  raw.isObj
  && (match pyGetD raw "overview" (.obj []) with
      | .ok v => v.isObj
      | .error _ => false)
  && (pyOr (g raw "traffic.estimated_monthly_visits" (.obj [])) (.obj [])).isObj
  && (match pyOr (g raw "audience.top_countries" (.arr [])) (.arr []) with
      | .arr cs => cs.all Json.isObj
      | _ => false)
  && (pyOr (g raw "traffic.sources" (.obj [])) (.obj [])).isObj
  && (match pyOr (g raw "traffic.top_keywords" (.arr [])) (.arr []) with
      | .arr kws => kws.all (fun kw =>
          kw.isObj && (!keptKeyword kw || isOkB (pyFloatOf (kwCpcOf kw))))
      | _ => false)
  && (pyOr (g raw "ranking.country" .null) (.obj [])).isObj
  && isOkB (pyFloatOf (g raw "engagement.bounce_rate" (.float ⟨0, 1⟩)))
  && isOkB (pyFloatOf (g raw "engagement.pages_per_visit" (.float ⟨0, 1⟩)))
  && isOkB (pyIntOf (g raw "engagement.visits" (.int 0)))
  && isOkB (pyFloatOf (g raw "engagement.time_on_site" (.float ⟨0, 1⟩)))

/-- The record produced from an empty payload: every field at its
documented default. -/
def defaultsRecord (domain : String) (now : DateTime) : Json := .obj [
  ("domain", .str domain),
  ("snapshotDate", .str (utc_now_iso now)),
  ("title", .str ""),
  ("description", .str ""),
  ("category", .str ""),
  ("screenshot", .str ""),
  ("globalRank", .int 0),
  ("countryRank", .obj [("Country", .str ""), ("CountryCode", .str ""), ("Rank", .int 0)]),
  ("categoryRank", .str ""),
  ("estimatedMonthlyVisits", .obj []),
  ("bounceRate", .str "0.0000"),
  ("pagesPerVisit", .str "0.00"),
  ("visits", .str "0"),
  ("timeOnSite", .str "0.00"),
  ("topCountryShares", .arr []),
  ("trafficSources", .obj []),
  ("topKeywords", .arr []),
  ("isDataFromGA", .bool false),
  ("competitors", .arr [])]

/-! ### Retry-policy observables (C4) -/

/-- Whether attempt `k`'s transport outcome is a 2xx response. -/
def successAt (tr : Nat → TResult) (k : Nat) : Bool :=
  match tr k with
  | .resp s _ => 200 ≤ s && s < 300
  | .err _ => false

/-- The backoff sleeps `backoffFactor * 2^(j-1)` for failed attempts
`j = 1..n` (1-indexed, exponents 0..n-1). -/
def expectedSleeps (backoff : PyFloat) (n : Nat) : List PyFloat :=
  (List.range' 1 n).map (backoffDelay backoff)

/-- Transport errors raised among attempts `[a, a+n)`, in order. -/
def errsIn (tr : Nat → TResult) (a n : Nat) : List PyExc :=
  (List.range' a n).filterMap (fun j => match tr j with
    | .err e => some e
    | .resp _ _ => none)

/-- The last element of an error list, or the default when none was
raised. -/
def lastD : List PyExc → PyExc → PyExc
  | [], d => d
  | e :: l, _ => lastD l e

/-- A transport that fails twice and then answers 200 — the spec's own
retry test stub. -/
def trW : Nat → TResult := fun j => if j ≤ 2 then .err .typeError else .resp 200 (.obj [])

/-- A payload with `True` and `False` boolean leaves at the three
numerically-filtered positions of remote normalization. -/
def c10payload : Json := .obj [
  ("traffic", .obj [
    ("estimated_monthly_visits", .obj [
      ("2024-01-01", .bool true), ("2024-02-01", .bool false)]),
    ("sources", .obj [("search", .bool true), ("direct", .bool false)])]),
  ("audience", .obj [("top_countries", .arr [
    .obj [("country_code", .str "US"), ("share", .bool true)],
    .obj [("country_code", .str "DE"), ("share", .bool false)]])])]

/-! ## Claim theorems -/

/--
**C9.** For every payload dictionary and dotted path, the getter `g`
returns the caller-supplied default not only when an intermediate node is
missing or not a mapping, but also when the value stored at the full path
is present and equal to `None`; such an explicit null leaf is
indistinguishable from an absent field (any payload on which the walk
breaks off yields the same default).
-/
theorem claim_C9 (raw : Json) (path : String) (default : Json)
    (h : gAux raw (splitDot path) = some .null) :
    g raw path default = default ∧
    ∀ raw2, gAux raw2 (splitDot path) = none →
      g raw path default = g raw2 path default := by
  refine ⟨?_, ?_⟩
  · simp [g, h, Json.isNull]
  · intro raw2 h2
    simp [g, h, h2, Json.isNull]

theorem claim_C9_witness :
    g (.obj [("a", .obj [("b", .null)])]) "a.b" (.int 7) = .int 7 ∧
    g (.obj [("a", .obj [("b", .null)])]) "a.b" (.int 7) = g (.obj []) "a.b" (.int 7) :=
  ⟨(claim_C9 (.obj [("a", .obj [("b", .null)])]) "a.b" (.int 7) rfl).1,
   (claim_C9 (.obj [("a", .obj [("b", .null)])]) "a.b" (.int 7) rfl).2 (.obj []) rfl⟩

/--
**C7.** `normalize_domain` itself never raises (it is a total function in
this embedding, returning the empty string sentinel), and whenever the
input normalizes to the empty string, `get_domain_data` raises the
invalid-domain `ValueError` before any mock generation or remote fetch
(no attempts, no sleeps, no warnings, no mock profiles).
-/
theorem claim_C7 (cfg : Config) (env : String → Option String)
    (tr : Nat → TResult) (now : DateTime) (domain : String)
    (h : normalize_domain (codesOf domain) = []) :
    get_domain_data cfg env tr now domain = (.error .valueError, ⟨[], 0, 0, 0⟩) := by
  simp [get_domain_data, h]

theorem claim_C7_witness :
    get_domain_data ⟨false, "SIMILARWEB_API_KEY", 3, ⟨1, 2⟩⟩ (fun _ => some "key")
      (fun _ => .err .runtimeError) ⟨⟨2025, 10, 12⟩, 0, 0, 0⟩ "   "
      = (.error .valueError, ⟨[], 0, 0, 0⟩) :=
  claim_C7 _ _ _ _ _ (by decide)

/--
**C8.** When remote mode is requested (`use_mock_data` false) but the
configured credential environment variable is unset or empty,
`get_domain_data` makes no remote attempt: it logs one warning and falls
back to the mock path, returning the mock-normalized record.
-/
theorem claim_C8 (cfg : Config) (env : String → Option String)
    (tr : Nat → TResult) (now : DateTime) (domain : String)
    (hmock : cfg.use_mock_data = false)
    (hkey : env cfg.api_key_env = none ∨ env cfg.api_key_env = some "")
    (hdom : normalize_domain (codesOf domain) ≠ []) :
    get_domain_data cfg env tr now domain =
      (.ok (normalize_mock_response
        (generate_mock_profile (normalize_domain (codesOf domain)) now.date) now),
       ⟨[], 0, 1, 1⟩) := by
  have henv : envTruthy (env cfg.api_key_env) = false := by
    rcases hkey with h | h <;> simp [envTruthy, h]
  simp [get_domain_data, hdom, hmock, henv]

theorem claim_C8_witness :
    get_domain_data ⟨false, "SIMILARWEB_API_KEY", 3, ⟨1, 2⟩⟩ (fun _ => none)
      (fun _ => .err .runtimeError) ⟨⟨2025, 10, 12⟩, 7, 0, 0⟩ "example.com" =
      (.ok (normalize_mock_response
        (generate_mock_profile (normalize_domain (codesOf "example.com"))
          ⟨2025, 10, 12⟩) ⟨⟨2025, 10, 12⟩, 7, 0, 0⟩),
       ⟨[], 0, 1, 1⟩) :=
  claim_C8 _ _ _ _ _ rfl (Or.inl rfl) (by decide)

/-- `build_estimated_visits` reads the wall clock only through
`replaceDay1`, so only the calendar month matters. -/
theorem build_estimated_visits_month (base : Int) (d1 d2 : Date)
    (hy : d1.year = d2.year) (hm : d1.month = d2.month) :
    build_estimated_visits base d1 = build_estimated_visits base d2 := by
  unfold build_estimated_visits monthKey replaceDay1
  rw [hy, hm]

/-- `generate_mock_profile` reads the wall clock only through
`build_estimated_visits`. -/
theorem generate_mock_profile_month (codes : PyStr) (d1 d2 : Date)
    (hy : d1.year = d2.year) (hm : d1.month = d2.month) :
    generate_mock_profile codes d1 = generate_mock_profile codes d2 := by
  have h : ∀ b, build_estimated_visits b d1 = build_estimated_visits b d2 :=
    fun b => build_estimated_visits_month b d1 d2 hy hm
  unfold generate_mock_profile
  simp only [h]

/--
**C1.** For every valid non-empty canonical domain, the mock path of
`get_domain_data` performs no I/O (no transport attempts, no sleeps —
even the transport and environment are irrelevant) and raises no
exception, and within one calendar month it is deterministic: two
separate invocations yield byte-identical `estimatedMonthlyVisits`
histories and identical pseudo-random-derived fields (the two records
agree everywhere except possibly the wall-clock `snapshotDate`).
-/
theorem claim_C1 (cfg : Config) (env1 env2 : String → Option String)
    (tr1 tr2 : Nat → TResult) (now1 now2 : DateTime) (domain : String)
    (hmock : cfg.use_mock_data = true)
    (hdom : normalize_domain (codesOf domain) ≠ [])
    (hy : now1.date.year = now2.date.year)
    (hm : now1.date.month = now2.date.month) :
    ∃ r1 r2,
      get_domain_data cfg env1 tr1 now1 domain = (.ok r1, ⟨[], 0, 0, 1⟩) ∧
      get_domain_data cfg env2 tr2 now2 domain = (.ok r2, ⟨[], 0, 0, 1⟩) ∧
      jsonLookup r1 "estimatedMonthlyVisits" = jsonLookup r2 "estimatedMonthlyVisits" ∧
      eraseField r1 "snapshotDate" = eraseField r2 "snapshotDate" := by
  have hprof := generate_mock_profile_month (normalize_domain (codesOf domain))
    now1.date now2.date hy hm
  refine ⟨normalize_mock_response
      (generate_mock_profile (normalize_domain (codesOf domain)) now1.date) now1,
    normalize_mock_response
      (generate_mock_profile (normalize_domain (codesOf domain)) now2.date) now2,
    ?_, ?_, ?_, ?_⟩
  · simp [get_domain_data, hdom, hmock]
  · simp [get_domain_data, hdom, hmock]
  · rw [hprof]; exact rfl
  · rw [hprof]; exact rfl

theorem claim_C1_witness :
    ∃ r1 r2,
      get_domain_data ⟨true, "K", 3, ⟨1, 2⟩⟩ (fun _ => none)
        (fun _ => .err .runtimeError) ⟨⟨2025, 10, 1⟩, 0, 0, 0⟩ "example.com"
        = (.ok r1, ⟨[], 0, 0, 1⟩) ∧
      get_domain_data ⟨true, "K", 3, ⟨1, 2⟩⟩ (fun _ => some "other")
        (fun _ => .resp 200 (.obj [])) ⟨⟨2025, 10, 31⟩, 23, 59, 59⟩ "example.com"
        = (.ok r2, ⟨[], 0, 0, 1⟩) ∧
      jsonLookup r1 "estimatedMonthlyVisits" = jsonLookup r2 "estimatedMonthlyVisits" ∧
      eraseField r1 "snapshotDate" = eraseField r2 "snapshotDate" :=
  claim_C1 _ _ _ _ _ _ _ "example.com" rfl (by decide) rfl rfl

/-! ### List helpers for the domain-normalizer claims -/

theorem mem_takeWhile {α} (p : α → Bool) :
    ∀ {l : List α} {a : α}, a ∈ l.takeWhile p → p a = true ∧ a ∈ l := by
  intro l
  induction l with
  | nil => intro a h; simp [List.takeWhile] at h
  | cons x t ih =>
      intro a h
      by_cases hx : p x = true
      · simp only [List.takeWhile, hx] at h
        rcases List.mem_cons.mp h with rfl | h
        · exact ⟨hx, List.mem_cons_self _ _⟩
        · exact ⟨(ih h).1, List.mem_cons_of_mem _ (ih h).2⟩
      · rw [Bool.not_eq_true] at hx
        simp only [List.takeWhile, hx] at h
        simp at h

theorem takeWhile_all {α} (p : α → Bool) :
    ∀ {l : List α}, (∀ a ∈ l, p a = true) → l.takeWhile p = l := by
  intro l
  induction l with
  | nil => intro; rfl
  | cons x t ih =>
      intro h
      simp only [List.takeWhile, h x (List.mem_cons_self _ _)]
      exact congrArg (x :: ·) (ih fun a ha => h a (List.mem_cons_of_mem _ ha))

theorem dropWhile_all {α} (p : α → Bool) :
    ∀ {l : List α}, (∀ a ∈ l, p a = true) → l.dropWhile p = [] := by
  intro l
  induction l with
  | nil => intro; rfl
  | cons x t ih =>
      intro h
      simp only [List.dropWhile, h x (List.mem_cons_self _ _)]
      exact ih fun a ha => h a (List.mem_cons_of_mem _ ha)

theorem isPrefixOf_mem {l s : PyStr} (h : l.isPrefixOf s = true) :
    ∀ a ∈ l, a ∈ s := by
  induction l generalizing s with
  | nil => simp
  | cons x xs ih =>
      cases s with
      | nil => simp [List.isPrefixOf] at h
      | cons y ys =>
          simp only [List.isPrefixOf, Bool.and_eq_true, beq_iff_eq] at h
          intro a ha
          rcases List.mem_cons.mp ha with rfl | ha
          · exact h.1 ▸ List.mem_cons_self _ _
          · exact List.mem_cons_of_mem _ (ih h.2 a ha)

theorem dropThrough_subset (pat : PyStr) :
    ∀ {s r : PyStr}, dropThrough pat s = some r → ∀ a ∈ r, a ∈ s := by
  intro s
  induction s with
  | nil =>
      intro r h
      by_cases hp : pat = [] <;> simp [dropThrough, hp] at h
      subst h; simp
  | cons c t ih =>
      intro r h
      simp only [dropThrough] at h
      by_cases hpre : pat.isPrefixOf (c :: t) = true
      · rw [if_pos hpre] at h
        injection h with h
        subst h
        exact fun a ha => List.drop_subset _ _ ha
      · rw [if_neg hpre] at h
        exact fun a ha => List.mem_cons_of_mem _ (ih h a ha)

theorem dropThrough_sep_none {s : PyStr} (h : (47 : Nat) ∉ s) :
    dropThrough schemeSep s = none := by
  induction s with
  | nil => rfl
  | cons c t ih =>
      simp only [dropThrough]
      rw [if_neg ?_]
      · exact ih fun hm => h (List.mem_cons_of_mem _ hm)
      · intro hpre
        exact h (isPrefixOf_mem hpre 47 (by decide))

theorem lowerCode_idem (n : Nat) : lowerCode (lowerCode n) = lowerCode n := by
  simp only [lowerCode]
  split_ifs <;> omega

theorem pyLower_fixed : ∀ {l : PyStr}, (∀ a ∈ l, lowerCode a = a) → pyLower l = l := by
  intro l
  induction l with
  | nil => intro; rfl
  | cons x t ih =>
      intro h
      simp only [pyLower, List.map_cons, h x (List.mem_cons_self _ _)]
      exact congrArg (x :: ·) (ih fun a ha => h a (List.mem_cons_of_mem _ ha))

/-- Every code point of a normalized domain is in the image of
`lowerCode` and is neither `/` (47) nor `?` (63). -/
theorem normalize_domain_chars (s : PyStr) :
    ∀ a ∈ normalize_domain s, (∃ b, a = lowerCode b) ∧ a ≠ 47 ∧ a ≠ 63 := by
  intro a ha
  unfold normalize_domain at ha
  by_cases hs : s = []
  · simp [hs] at ha
  · rw [if_neg hs] at ha
    dsimp only at ha
    obtain ⟨h63, ha1⟩ := mem_takeWhile _ ha
    obtain ⟨h47, ha2⟩ := mem_takeWhile _ ha1
    have hmem : a ∈ pyLower (pyStrip s) := by
      revert ha2
      cases hdt : dropThrough schemeSep (pyLower (pyStrip s)) with
      | none => intro ha2; exact ha2
      | some r => intro ha2; exact dropThrough_subset _ hdt a ha2
    obtain ⟨b, _, rfl⟩ := List.mem_map.mp hmem
    refine ⟨⟨b, rfl⟩, ?_, ?_⟩
    · simpa using h47
    · simpa using h63

/--
**C6 (counterexample).** The claimed unrestricted idempotency fails: on
`"x:// y"` normalization yields `" y"` (internal whitespace survives the
scheme split and becomes leading whitespace), and normalizing again
strips it to `"y"`.
-/
theorem claim_C6_cex :
    normalize_domain (normalize_domain (codesOf "x:// y")) ≠
      normalize_domain (codesOf "x:// y") := by decide

/--
**C6 (amended).** `normalize_domain` is idempotent on every input whose
normalized form is whitespace-trimmed (equivalently: re-normalizing
changes the result only by stripping whitespace that a scheme/path/query
split can expose, as in the counterexample); on
`"scheme://Host.Example.COM/path?q=1"` it returns `"host.example.com"`;
and empty or whitespace-only input yields the empty string.
-/
theorem claim_C6_amended (s w : PyStr)
    (hs : pyStrip (normalize_domain s) = normalize_domain s)
    (hw : ∀ c ∈ w, isSpaceCode c = true) :
    normalize_domain (normalize_domain s) = normalize_domain s ∧
    normalize_domain (codesOf "scheme://Host.Example.COM/path?q=1") =
      codesOf "host.example.com" ∧
    normalize_domain w = [] := by
  refine ⟨?_, by decide, ?_⟩
  · by_cases h0 : normalize_domain s = []
    · rw [h0]; rfl
    · have hchars := normalize_domain_chars s
      have hlower : pyLower (normalize_domain s) = normalize_domain s :=
        pyLower_fixed fun a ha => by
          obtain ⟨⟨b, rfl⟩, -, -⟩ := hchars a ha
          exact lowerCode_idem b
      have h47 : (47 : Nat) ∉ normalize_domain s :=
        fun hmem => (hchars 47 hmem).2.1 rfl
      have h63 : (63 : Nat) ∉ normalize_domain s :=
        fun hmem => (hchars 63 hmem).2.2 rfl
      have hscheme : dropThrough schemeSep (normalize_domain s) = none :=
        dropThrough_sep_none h47
      have htw47 : (normalize_domain s).takeWhile (· ≠ 47) = normalize_domain s :=
        takeWhile_all _ fun a ha => by
          simpa using fun h : a = 47 => h47 (h ▸ ha)
      have htw63 : (normalize_domain s).takeWhile (· ≠ 63) = normalize_domain s :=
        takeWhile_all _ fun a ha => by
          simpa using fun h : a = 63 => h63 (h ▸ ha)
      conv_lhs => rw [normalize_domain]
      rw [if_neg h0]
      dsimp only
      rw [hs, hlower, hscheme, htw47, htw63]
  · by_cases h0 : w = []
    · rw [h0]; rfl
    · have hstrip : pyStrip w = [] := by
        unfold pyStrip
        rw [dropWhile_all _ hw]
        rfl
      rw [normalize_domain, if_neg h0]
      dsimp only
      rw [hstrip]
      rfl

theorem claim_C6_witness :
    normalize_domain (normalize_domain (codesOf "HTTPS://Example.com/page")) =
      normalize_domain (codesOf "HTTPS://Example.com/page") ∧
    normalize_domain (codesOf "scheme://Host.Example.COM/path?q=1") =
      codesOf "host.example.com" ∧
    normalize_domain (codesOf "  ") = [] :=
  claim_C6_amended (codesOf "HTTPS://Example.com/page") (codesOf "  ")
    (by decide) (by decide)

/-! ### C5: the keyword keeping rule -/

theorem isObj_exists (v : Json) (h : v.isObj = true) : ∃ kvs, v = .obj kvs := by
  cases v <;> simp [Json.isObj] at h ⊢

theorem isOkB_exists {ε α : Type} (e : Except ε α) (h : isOkB e = true) :
    ∃ c, e = .ok c := by
  cases e <;> simp [isOkB] at h ⊢

theorem keywordStep_kept (acc : List Json) (kvs : List (String × Json)) (c : PyFloat)
    (h1 : pyTruthy (pyOr ((List.lookup "keyword" kvs).getD .null)
      ((List.lookup "name" kvs).getD .null)) = true)
    (h2 : isNumber (pyOr ((List.lookup "visits" kvs).getD .null)
      ((List.lookup "value" kvs).getD .null)) = true)
    (hc : pyFloatOf (pyOr ((List.lookup "cpc" kvs).getD .null) (.float ⟨0, 1⟩)) = .ok c) :
    keywordStep acc (.obj kvs) =
      .ok (acc ++ [Json.obj [("name", pyOr ((List.lookup "keyword" kvs).getD .null)
        ((List.lookup "name" kvs).getD .null)),
        ("value", .int (pyIntNum (pyOr ((List.lookup "visits" kvs).getD .null)
          ((List.lookup "value" kvs).getD .null)))), ("cpc", .float c)]]) := by
  simp only [keywordStep, pyGet, bind, Except.bind]
  rw [if_pos ((Bool.and_eq_true _ _).mpr (And.intro h1 h2)), hc]
  rfl

theorem keywordStep_dropped (acc : List Json) (kvs : List (String × Json))
    (h : ¬(pyTruthy (pyOr ((List.lookup "keyword" kvs).getD .null)
        ((List.lookup "name" kvs).getD .null)) = true ∧
      isNumber (pyOr ((List.lookup "visits" kvs).getD .null)
        ((List.lookup "value" kvs).getD .null)) = true)) :
    keywordStep acc (.obj kvs) = .ok acc := by
  simp only [keywordStep, pyGet, bind, Except.bind]
  rw [if_neg (fun hh => h ((Bool.and_eq_true _ _).mp hh))]
  rfl

theorem keywordFold (kws : List Json) : ∀ acc : List Json,
    (∀ kw ∈ kws, kw.isObj = true) →
    (∀ kw ∈ kws, keptKeyword kw = true → isOkB (pyFloatOf (kwCpcOf kw)) = true) →
    foldE keywordStep acc kws = .ok (acc ++ kws.filterMap keepKeyword) := by
  induction kws with
  | nil => intro acc _ _; simp [foldE]
  | cons kw t ih =>
      intro acc hobj hcpc
      obtain ⟨kvs, rfl⟩ := isObj_exists kw (hobj kw (List.mem_cons_self _ _))
      have hobj' := fun k hk => hobj k (List.mem_cons_of_mem _ hk)
      have hcpc' := fun k hk => hcpc k (List.mem_cons_of_mem _ hk)
      by_cases h1 : pyTruthy (pyOr ((List.lookup "keyword" kvs).getD .null)
          ((List.lookup "name" kvs).getD .null)) = true
      · by_cases h2 : isNumber (pyOr ((List.lookup "visits" kvs).getD .null)
            ((List.lookup "value" kvs).getD .null)) = true
        · have hok := hcpc _ (List.mem_cons_self _ _)
            (by simp [keptKeyword, kwNameOf, kwValueOf, jsonLookup, h1, h2])
          obtain ⟨c, hc⟩ := isOkB_exists _ hok
          simp only [kwCpcOf, jsonLookup] at hc
          rw [foldE, keywordStep_kept acc kvs c h1 h2 hc]
          dsimp only
          rw [ih _ hobj' hcpc']
          simp [List.filterMap_cons, keepKeyword, keptKeyword, kwNameOf, kwValueOf,
            kwCpcOf, jsonLookup, h1, h2, hc]
        · rw [foldE, keywordStep_dropped acc kvs (fun hh => h2 hh.2)]
          dsimp only
          rw [ih _ hobj' hcpc']
          simp [List.filterMap_cons, keepKeyword, keptKeyword, kwNameOf, kwValueOf,
            jsonLookup, h2]
      · rw [foldE, keywordStep_dropped acc kvs (fun hh => h1 hh.1)]
        dsimp only
        rw [ih _ hobj' hcpc']
        simp [List.filterMap_cons, keepKeyword, keptKeyword, kwNameOf, kwValueOf,
          jsonLookup, h1]

/--
**C5 (counterexample).** The claim as stated is false: the entry
`{"name": "x"}` has a name but no numeric value, so the claim says it is
kept; the code's `if name and isinstance(value, (int, float))` drops it,
leaving `topKeywords` empty.
-/
theorem claim_C5_cex :
    topKeywordsOf (normalize_real_response "example.com"
      ⟨⟨2025, 10, 12⟩, 0, 0, 0⟩ c5payload) = some (.arr []) ∧
    ∀ e es, topKeywordsOf (normalize_real_response "example.com"
      ⟨⟨2025, 10, 12⟩, 0, 0, 0⟩ c5payload) ≠ some (.arr (e :: es)) := by
  refine ⟨rfl, ?_⟩
  intro e es h
  rw [show topKeywordsOf (normalize_real_response "example.com"
    ⟨⟨2025, 10, 12⟩, 0, 0, 0⟩ c5payload) = some (Json.arr []) from rfl] at h
  injection h with h1
  injection h1 with h2
  exact List.cons_ne_nil e es h2.symm

/--
**C5 (amended).** In remote normalization of `traffic.top_keywords` (for
object entries whose cpc, when the entry is kept, converts with
`float()`), the keyword name is `keyword`'s value if truthy else
`name`'s; the value is `visits`'s value if truthy else `value`'s; cpc is
`cpc`'s value if truthy else 0.0; and exactly those entries with a truthy
name **and** a numeric value are kept — an entry lacking either one is
dropped.
-/
theorem claim_C5_amended (kws : List Json)
    (hobj : ∀ kw ∈ kws, kw.isObj = true)
    (hcpc : ∀ kw ∈ kws, keptKeyword kw = true → isOkB (pyFloatOf (kwCpcOf kw)) = true) :
    normKeywords (.obj [("traffic", .obj [("top_keywords", .arr kws)])]) =
      .ok (kws.filterMap keepKeyword) := by
  cases kws with
  | nil => rfl
  | cons k t =>
      show foldE keywordStep [] (k :: t) = .ok ((k :: t).filterMap keepKeyword)
      simpa using keywordFold (k :: t) [] hobj hcpc

theorem claim_C5_witness :
    normKeywords (.obj [("traffic", .obj [("top_keywords", .arr kwsW)])]) =
      .ok (kwsW.filterMap keepKeyword) :=
  claim_C5_amended kwsW (by decide) (by decide)

/-! ### C3: normalization under well-shaped payloads -/

theorem normVisits_ok (raw : Json)
    (h : (pyOr (g raw "traffic.estimated_monthly_visits" (.obj [])) (.obj [])).isObj = true) :
    ∃ l, normVisits raw = .ok l := by
  obtain ⟨kvs, hv⟩ := isObj_exists _ h
  unfold normVisits
  dsimp only
  rw [hv]
  exact ⟨_, rfl⟩

theorem normSources_ok (raw : Json)
    (h : (pyOr (g raw "traffic.sources" (.obj [])) (.obj [])).isObj = true) :
    ∃ l, normSources raw = .ok l := by
  obtain ⟨kvs, hv⟩ := isObj_exists _ h
  unfold normSources
  dsimp only
  rw [hv]
  exact ⟨_, rfl⟩

theorem normCountryRank_ok (raw : Json)
    (h : (pyOr (g raw "ranking.country" .null) (.obj [])).isObj = true) :
    ∃ v, normCountryRank raw = .ok v := by
  obtain ⟨kvs, hv⟩ := isObj_exists _ h
  unfold normCountryRank
  rw [hv]
  exact ⟨_, rfl⟩

theorem countryFold_ok : ∀ (cs : List Json) (acc : List Json),
    (∀ c ∈ cs, c.isObj = true) → ∃ l, foldE countryStep acc cs = .ok l := by
  intro cs
  induction cs with
  | nil => intro acc _; exact ⟨acc, rfl⟩
  | cons c t ih =>
      intro acc h
      obtain ⟨kvs, rfl⟩ := isObj_exists c (h c (List.mem_cons_self _ _))
      obtain ⟨l, hl⟩ := ih (if pyTruthy ((List.lookup "country_code" kvs).getD .null) &&
          isNumber ((List.lookup "share" kvs).getD .null) then
          acc ++ [Json.obj [("CountryCode", (List.lookup "country_code" kvs).getD .null),
            ("Value", .float (pyFloatNum ((List.lookup "share" kvs).getD .null)))]]
        else acc) (fun x hx => h x (List.mem_cons_of_mem _ hx))
      exact ⟨l, by rw [foldE]; exact hl⟩

theorem normCountries_ok (raw : Json)
    (h : (match pyOr (g raw "audience.top_countries" (.arr [])) (.arr []) with
      | .arr cs => cs.all Json.isObj
      | _ => false) = true) :
    ∃ l, normCountries raw = .ok l := by
  unfold normCountries
  dsimp only
  cases hv : pyOr (g raw "audience.top_countries" (.arr [])) (.arr []) with
  | arr cs =>
      rw [hv] at h
      exact countryFold_ok cs [] (fun c hc => by
        have := List.all_eq_true.mp h c hc
        simpa using this)
  | null => rw [hv] at h; simp at h
  | bool b => rw [hv] at h; simp at h
  | int n => rw [hv] at h; simp at h
  | float q => rw [hv] at h; simp at h
  | str s => rw [hv] at h; simp at h
  | obj kvs => rw [hv] at h; simp at h

theorem normKeywords_ok (raw : Json)
    (h : (match pyOr (g raw "traffic.top_keywords" (.arr [])) (.arr []) with
      | .arr kws => kws.all (fun kw =>
          kw.isObj && (!keptKeyword kw || isOkB (pyFloatOf (kwCpcOf kw))))
      | _ => false) = true) :
    ∃ l, normKeywords raw = .ok l := by
  unfold normKeywords
  dsimp only
  cases hv : pyOr (g raw "traffic.top_keywords" (.arr [])) (.arr []) with
  | arr kws =>
      rw [hv] at h
      refine ⟨kws.filterMap keepKeyword, ?_⟩
      have hall := List.all_eq_true.mp h
      have h1 : ∀ kw ∈ kws, kw.isObj = true := fun kw hk => by
        have := hall kw hk; simp [Bool.and_eq_true] at this; exact this.1
      have h2 : ∀ kw ∈ kws, keptKeyword kw = true → isOkB (pyFloatOf (kwCpcOf kw)) = true := by
        intro kw hk hkept
        have := hall kw hk
        simp [Bool.and_eq_true, Bool.or_eq_true, hkept] at this
        exact this.2
      simpa using keywordFold kws [] h1 h2
  | null => rw [hv] at h; simp at h
  | bool b => rw [hv] at h; simp at h
  | int n => rw [hv] at h; simp at h
  | float q => rw [hv] at h; simp at h
  | str s => rw [hv] at h; simp at h
  | obj kvs => rw [hv] at h; simp at h

/--
**C3 (counterexample).** The claim as stated is false: on the payload
`{"audience": {"top_countries": [5]}}` — a structurally-valid JSON object
whose malformation (a non-dict entry in `top_countries`) the claim says
is silently defaulted — the code raises `AttributeError` at `c.get`.
-/
theorem claim_C3_cex :
    normalize_real_response "example.com" ⟨⟨2025, 10, 12⟩, 0, 0, 0⟩
      (.obj [("audience", .obj [("top_countries", .arr [.int 5])])]) =
      .error .attributeError := rfl

/--
**C3 (amended).** For every *well-shaped* payload — containers at the
positions the normalizer iterates or `.get`s are of the container type it
expects (or absent/falsy), and the `engagement` leaves and kept-keyword
cpc values are convertible — `_normalize_real_response` returns a record
without raising; and every absent field is replaced by its documented
default (witnessed exactly on the empty payload).
-/
theorem claim_C3_amended (raw : Json) (domain : String) (now : DateTime)
    (h : wellShaped raw = true) :
    (∃ r, normalize_real_response domain now raw = .ok r) ∧
    normalize_real_response domain now (.obj []) = .ok (defaultsRecord domain now) := by
  refine ⟨?_, rfl⟩
  simp only [wellShaped, Bool.and_eq_true] at h
  obtain ⟨⟨⟨⟨⟨⟨⟨⟨⟨⟨hraw, hov⟩, hvis⟩, hctr⟩, hsrc⟩, hkw⟩, hcrk⟩, hbr⟩, hpv⟩, hvz⟩, hts⟩ := h
  obtain ⟨ov, hovEq⟩ : ∃ v, pyGetD raw "overview" (.obj []) = .ok v := by
    cases he : pyGetD raw "overview" (.obj []) with
    | ok v => exact ⟨v, rfl⟩
    | error e => rw [he] at hov; simp at hov
  have hovObj : ov.isObj = true := by rw [hovEq] at hov; simpa using hov
  obtain ⟨ovKvs, rfl⟩ := isObj_exists ov hovObj
  obtain ⟨vl, hvl⟩ := normVisits_ok raw hvis
  obtain ⟨cl, hcl⟩ := normCountries_ok raw hctr
  obtain ⟨sl, hsl⟩ := normSources_ok raw hsrc
  obtain ⟨kl, hkl⟩ := normKeywords_ok raw hkw
  obtain ⟨cr, hcr⟩ := normCountryRank_ok raw hcrk
  obtain ⟨b1, hb1⟩ := isOkB_exists _ hbr
  obtain ⟨b2, hb2⟩ := isOkB_exists _ hpv
  obtain ⟨b3, hb3⟩ := isOkB_exists _ hvz
  obtain ⟨b4, hb4⟩ := isOkB_exists _ hts
  unfold normalize_real_response
  rw [hovEq, hvl, hcl, hsl, hkl, hcr, hb1, hb2, hb3, hb4]
  simp only [bind, Except.bind, pyGet, pure, Except.pure]
  exact ⟨_, rfl⟩

theorem claim_C3_witness :
    (∃ r, normalize_real_response "example.com" ⟨⟨2025, 10, 12⟩, 0, 0, 0⟩ (.obj [])
      = .ok r) ∧
    normalize_real_response "example.com" ⟨⟨2025, 10, 12⟩, 0, 0, 0⟩ (.obj []) =
      .ok (defaultsRecord "example.com" ⟨⟨2025, 10, 12⟩, 0, 0, 0⟩) :=
  claim_C3_amended (.obj []) "example.com" ⟨⟨2025, 10, 12⟩, 0, 0, 0⟩ (by decide)

/-! ### C4: the retry policy -/

theorem range1_succ (s n : Nat) : List.range' s (n + 1) = s :: List.range' (s + 1) n := rfl

theorem lastD_cons (e : PyExc) (l : List PyExc) (d : PyExc) :
    lastD (e :: l) d = lastD l e := rfl

theorem fetchLoop_attempts_le (tr : Nat → TResult) (maxR : Nat) (backoff : PyFloat) :
    ∀ (fuel attempt : Nat) (lastExc : Option PyExc),
    (fetchLoop tr maxR backoff fuel attempt lastExc).2.2 ≤ maxR + 1 - attempt := by
  intro fuel
  induction fuel with
  | zero =>
      intro attempt lastExc
      simp [fetchLoop]
  | succ fuel ih =>
      intro attempt lastExc
      simp only [fetchLoop]
      by_cases hc : maxR < attempt
      · rw [if_pos hc]; simp
      · rw [if_neg hc]
        cases htr : tr attempt with
        | resp s b =>
            dsimp only
            by_cases hs : 200 ≤ s ∧ s < 300
            · rw [if_pos hs]; dsimp only; omega
            · rw [if_neg hs]
              dsimp only
              have := ih (attempt + 1) lastExc
              omega
        | err e =>
            dsimp only
            have := ih (attempt + 1) (some e)
            omega

theorem fetchLoop_success (tr : Nat → TResult) (maxR : Nat) (backoff : PyFloat)
    (k s : Nat) (b : Json) (hk : tr k = .resp s b) (hs1 : 200 ≤ s) (hs2 : s < 300) :
    ∀ (fuel attempt : Nat) (lastExc : Option PyExc),
    1 ≤ attempt → attempt ≤ k → k ≤ maxR → maxR + 1 ≤ fuel + attempt →
    (∀ j, attempt ≤ j → j < k → successAt tr j = false) →
    fetchLoop tr maxR backoff fuel attempt lastExc =
      (.ok b, (List.range' attempt (k - attempt)).map (backoffDelay backoff),
       k - attempt + 1) := by
  intro fuel
  induction fuel with
  | zero => intro attempt lastExc h1 h2 h3 h4 _; omega
  | succ fuel ih =>
      intro attempt lastExc h1 h2 h3 h4 hfail
      simp only [fetchLoop]
      rw [if_neg (by omega : ¬maxR < attempt)]
      by_cases hak : attempt = k
      · subst hak
        rw [hk]
        try dsimp only
        rw [if_pos (And.intro hs1 hs2)]
        simp [Nat.sub_self]
      · have hlt : attempt < k := by omega
        have hfa : successAt tr attempt = false := hfail attempt (le_refl _) hlt
        cases htr : tr attempt with
        | resp s' b' =>
            try dsimp only
            have hns : ¬(200 ≤ s' ∧ s' < 300) := by
              intro hss
              simp [successAt, htr, hss.1, hss.2] at hfa
            rw [if_neg hns]
            try dsimp only
            rw [ih (attempt + 1) lastExc (by omega) (by omega) h3 (by omega)
              (fun j hj1 hj2 => hfail j (by omega) hj2)]
            try dsimp only
            rw [if_pos (by omega : attempt < maxR)]
            rw [show k - attempt = (k - (attempt + 1)) + 1 from by omega, range1_succ]
            simp
        | err e =>
            try dsimp only
            rw [ih (attempt + 1) (some e) (by omega) (by omega) h3 (by omega)
              (fun j hj1 hj2 => hfail j (by omega) hj2)]
            try dsimp only
            rw [if_pos (by omega : attempt < maxR)]
            rw [show k - attempt = (k - (attempt + 1)) + 1 from by omega, range1_succ]
            simp

theorem fetchLoop_allfail (tr : Nat → TResult) (maxR : Nat) (backoff : PyFloat) :
    ∀ (fuel attempt : Nat) (lastExc : Option PyExc),
    1 ≤ attempt → attempt ≤ maxR + 1 → maxR + 1 ≤ fuel + attempt →
    (∀ j, attempt ≤ j → j ≤ maxR → successAt tr j = false) →
    fetchLoop tr maxR backoff fuel attempt lastExc =
      (.error (lastD (errsIn tr attempt (maxR + 1 - attempt))
        (match lastExc with | some e => e | none => .runtimeError)),
       (List.range' attempt (maxR - attempt)).map (backoffDelay backoff),
       maxR + 1 - attempt) := by
  intro fuel
  induction fuel with
  | zero =>
      intro attempt lastExc h1 h2 h3 hfail
      have ha : attempt = maxR + 1 := by omega
      subst ha
      simp only [fetchLoop]
      rw [show maxR + 1 - (maxR + 1) = 0 from by omega,
        show maxR - (maxR + 1) = 0 from by omega]
      simp [errsIn, lastD]
  | succ fuel ih =>
      intro attempt lastExc h1 h2 h3 hfail
      simp only [fetchLoop]
      by_cases hc : maxR < attempt
      · rw [if_pos hc]
        have ha : attempt = maxR + 1 := by omega
        subst ha
        rw [show maxR + 1 - (maxR + 1) = 0 from by omega,
          show maxR - (maxR + 1) = 0 from by omega]
        simp [errsIn, lastD]
      · rw [if_neg hc]
        have hfa : successAt tr attempt = false := hfail attempt (le_refl _) (by omega)
        have hsub : maxR + 1 - attempt = (maxR + 1 - (attempt + 1)) + 1 := by omega
        cases htr : tr attempt with
        | resp s' b' =>
            try dsimp only
            have hns : ¬(200 ≤ s' ∧ s' < 300) := by
              intro hss
              simp [successAt, htr, hss.1, hss.2] at hfa
            rw [if_neg hns]
            try dsimp only
            rw [ih (attempt + 1) lastExc (by omega) (by omega) (by omega)
              (fun j hj1 hj2 => hfail j (by omega) hj2)]
            rw [hsub, show errsIn tr attempt ((maxR + 1 - (attempt + 1)) + 1) =
              errsIn tr (attempt + 1) (maxR + 1 - (attempt + 1)) from by
                simp [errsIn, range1_succ, List.filterMap_cons, htr]]
            by_cases ham : attempt < maxR
            · rw [if_pos ham]
              rw [show maxR - attempt = (maxR - (attempt + 1)) + 1 from by omega, range1_succ]
              simp
            · rw [if_neg ham]
              rw [show maxR - attempt = 0 from by omega,
                show maxR - (attempt + 1) = 0 from by omega]
              simp
        | err e =>
            try dsimp only
            rw [ih (attempt + 1) (some e) (by omega) (by omega) (by omega)
              (fun j hj1 hj2 => hfail j (by omega) hj2)]
            rw [hsub, show errsIn tr attempt ((maxR + 1 - (attempt + 1)) + 1) =
              e :: errsIn tr (attempt + 1) (maxR + 1 - (attempt + 1)) from by
                simp [errsIn, range1_succ, List.filterMap_cons, htr]]
            rw [lastD_cons]
            by_cases ham : attempt < maxR
            · rw [if_pos ham]
              rw [show maxR - attempt = (maxR - (attempt + 1)) + 1 from by omega, range1_succ]
              simp
            · rw [if_neg ham]
              rw [show maxR - attempt = 0 from by omega,
                show maxR - (attempt + 1) = 0 from by omega]
              simp

/--
**C4.** For every transport behaviour (a function from attempt number to
a status-plus-body response or a raised error), `_fetch_raw_data` makes
at most `maxRetries` attempts; between failed attempts (but not after
the final one) it sleeps `backoffFactor * 2^(attempt-1)` seconds with
attempts 1-indexed; if an attempt returns a status in [200, 300) it
returns that parsed body immediately (having slept exactly after the
earlier failed attempts); and if all `maxRetries` attempts fail it
raises the last transport error if one occurred and a generic
`RuntimeError` otherwise.
-/
theorem claim_C4 (tr : Nat → TResult) (maxR : Nat) (backoff : PyFloat) (key : String)
    (hkey : key ≠ "") :
    (fetch_raw_data tr maxR backoff (some key)).2.2 ≤ maxR ∧
    (∀ k s b, 1 ≤ k → k ≤ maxR → tr k = .resp s b → 200 ≤ s → s < 300 →
      (∀ j, j < k → 1 ≤ j → successAt tr j = false) →
      fetch_raw_data tr maxR backoff (some key) =
        (.ok b, expectedSleeps backoff (k - 1), k)) ∧
    ((∀ j, 1 ≤ j → j ≤ maxR → successAt tr j = false) →
      fetch_raw_data tr maxR backoff (some key) =
        (.error (lastD (errsIn tr 1 maxR) .runtimeError),
         expectedSleeps backoff (maxR - 1), maxR)) := by
  have hfe : fetch_raw_data tr maxR backoff (some key) =
      fetchLoop tr maxR backoff (maxR + 1) 1 none := by
    simp [fetch_raw_data, hkey]
  refine ⟨?_, ?_, ?_⟩
  · rw [hfe]
    have := fetchLoop_attempts_le tr maxR backoff (maxR + 1) 1 none
    simpa using this
  · intro k s b hk1 hk2 htr hs1 hs2 hfail
    rw [hfe]
    rw [fetchLoop_success tr maxR backoff k s b htr hs1 hs2 (maxR + 1) 1 none
      (le_refl _) hk1 hk2 (by omega) (fun j hj1 hj2 => hfail j hj2 hj1)]
    rw [show k - 1 + 1 = k from by omega]
    rfl
  · intro hfail
    rw [hfe]
    rw [fetchLoop_allfail tr maxR backoff (maxR + 1) 1 none (le_refl _) (by omega)
      (by omega) (fun j hj1 hj2 => hfail j hj1 hj2)]
    rw [show maxR + 1 - 1 = maxR from by omega]
    rfl

theorem claim_C4_witness :
    fetch_raw_data trW 3 ⟨1, 2⟩ (some "k") =
      (.ok (.obj []), expectedSleeps ⟨1, 2⟩ 2, 3) :=
  (claim_C4 trW 3 ⟨1, 2⟩ "k" (by decide)).2.1 3 200 (.obj [])
    (by decide) (by decide) rfl (by decide) (by decide) (by decide)

/-! ### C2: the estimated-visits month keys -/

theorem monthLen_pos (y : Int) (m : Nat) : 1 ≤ monthLen y m := by
  unfold monthLen
  split_ifs <;> omega

theorem prevDay_facts (d : Date) (h1 : 1 ≤ d.month) (h2 : d.month ≤ 12) :
    1 ≤ (prevDay d).month ∧ (prevDay d).month ≤ 12 ∧
    ymIdx (prevDay d) ≤ ymIdx d ∧
    d.year - 1 ≤ (prevDay d).year ∧ (prevDay d).year ≤ d.year := by
  unfold prevDay
  split_ifs with ha hb <;> simp [ymIdx] <;> omega

theorem subDays_facts : ∀ (n : Nat) (d : Date), 1 ≤ d.month → d.month ≤ 12 →
    1 ≤ (subDays d n).month ∧ (subDays d n).month ≤ 12 ∧
    ymIdx (subDays d n) ≤ ymIdx d ∧ (subDays d n).year ≤ d.year := by
  intro n
  induction n with
  | zero => intro d h1 h2; exact ⟨h1, h2, le_refl _, le_refl _⟩
  | succ n ih =>
      intro d h1 h2
      obtain ⟨p1, p2, p3, p4, p5⟩ := prevDay_facts d h1 h2
      obtain ⟨q1, q2, q3, q4⟩ := ih (prevDay d) p1 p2
      refine ⟨q1, q2, le_trans q3 p3, le_trans q4 p5⟩

theorem subDays_append : ∀ (a : Nat) (d : Date) (b : Nat),
    subDays (subDays d a) b = subDays d (a + b) := by
  intro a
  induction a with
  | zero => intro d b; rw [Nat.zero_add]; rfl
  | succ a ih =>
      intro d b
      show subDays (subDays (prevDay d) a) b = _
      rw [ih (prevDay d) b]
      rw [show a + 1 + b = (a + b) + 1 from by omega]
      rfl

theorem subDays_within_month : ∀ (n : Nat) (d : Date), n + 1 ≤ d.day →
    subDays d n = ⟨d.year, d.month, d.day - n⟩ := by
  intro n
  induction n with
  | zero => intro d _; rfl
  | succ n ih =>
      intro d hd
      show subDays (prevDay d) n = _
      rw [show prevDay d = ⟨d.year, d.month, d.day - 1⟩ from by
        unfold prevDay; rw [if_pos (by omega)]]
      rw [ih ⟨d.year, d.month, d.day - 1⟩ (by simp; omega)]
      simp
      omega

theorem subDays_dec31 (y : Int) (k : Nat) (hk : k ≤ 60) :
    (subDays ⟨y, 12, 31⟩ k).year = y := by
  by_cases h30 : k ≤ 30
  · rw [subDays_within_month k ⟨y, 12, 31⟩ (by simp; omega)]
  · have h31 : subDays ⟨y, 12, 31⟩ 31 = ⟨y, 11, 30⟩ := by
      rw [show (31 : Nat) = 30 + 1 from rfl, ← subDays_append 30]
      rw [subDays_within_month 30 ⟨y, 12, 31⟩ (by simp)]
      show prevDay ⟨y, 12, 1⟩ = ⟨y, 11, 30⟩
      unfold prevDay
      rw [if_neg (by simp), if_pos (by simp)]
      simp [monthLen]
    obtain ⟨j, hj⟩ : ∃ j, k = 31 + j := ⟨k - 31, by omega⟩
    subst hj
    rw [← subDays_append 31, h31,
      subDays_within_month j ⟨y, 11, 30⟩ (by simp; omega)]

theorem subDays_year_lb : ∀ (n : Nat) (d : Date), n ≤ 61 → 1 ≤ d.month → d.month ≤ 12 →
    d.year - 1 ≤ (subDays d n).year := by
  intro n
  induction n with
  | zero => intro d _ _ _; simp [subDays]
  | succ n ih =>
      intro d hn h1 h2
      show d.year - 1 ≤ (subDays (prevDay d) n).year
      by_cases hcross : 2 ≤ d.day ∨ 2 ≤ d.month
      · have hkeep : (prevDay d).year = d.year := by
          unfold prevDay
          split_ifs <;> simp
          omega
        obtain ⟨p1, p2, _, _, _⟩ := prevDay_facts d h1 h2
        have := ih (prevDay d) (by omega) p1 p2
        omega
      · push_neg at hcross
        have hpd : prevDay d = ⟨d.year - 1, 12, 31⟩ := by
          unfold prevDay
          rw [if_neg (by omega), if_neg (by omega)]
        rw [hpd, subDays_dec31 _ _ (by omega)]

theorem digitChar_inj : ∀ a, a < 10 → ∀ b, b < 10 → digitChar a = digitChar b → a = b := by
  decide

theorem fmtMonth_inj (d e : Date)
    (hd1 : 0 ≤ d.year) (hd2 : d.year ≤ 9999) (hdm : d.month ≤ 99)
    (he1 : 0 ≤ e.year) (he2 : e.year ≤ 9999) (hem : e.month ≤ 99)
    (h : fmtMonth d = fmtMonth e) : d.year = e.year ∧ d.month = e.month := by
  have hdata := congrArg String.data h
  simp only [fmtMonth, pad4, pad2, List.cons_append, List.nil_append,
    List.cons.injEq, and_true] at hdata
  obtain ⟨h1, h2, h3, h4, -, h5, h6⟩ := hdata
  have e1 := digitChar_inj _ (by omega) _ (by omega) h1
  have e2 := digitChar_inj _ (by omega) _ (by omega) h2
  have e3 := digitChar_inj _ (by omega) _ (by omega) h3
  have e4 := digitChar_inj _ (by omega) _ (by omega) h4
  have e5 := digitChar_inj _ (by omega) _ (by omega) h5
  have e6 := digitChar_inj _ (by omega) _ (by omega) h6
  constructor
  · omega
  · omega

theorem ymIdx_replaceDay1 (d : Date) : ymIdx (replaceDay1 d) = ymIdx d := rfl

theorem subDays_succ (d : Date) (n : Nat) :
    subDays d (n + 1) = subDays (prevDay d) n := rfl

theorem subDays30_lt (m0 : Date) (hm1 : 1 ≤ m0.month) (hm2 : m0.month ≤ 12)
    (hday : m0.day = 1) : ymIdx (subDays m0 30) < ymIdx m0 := by
  have hstep : subDays m0 30 = subDays (prevDay m0) 29 := by
    rw [show (30 : Nat) = 29 + 1 from rfl, subDays_succ]
  have hlt : ymIdx (prevDay m0) < ymIdx m0 := by
    unfold prevDay
    rw [if_neg (by omega)]
    split_ifs with h <;> simp [ymIdx] <;> omega
  obtain ⟨p1, p2, _, _, _⟩ := prevDay_facts m0 hm1 hm2
  have hb := subDays_facts 29 (prevDay m0) p1 p2
  rw [hstep]
  exact lt_of_le_of_lt hb.2.2.1 hlt

theorem pyDictInsert_values {α : Type} (P : α → Prop) :
    ∀ (l : List (String × α)) (k : String) (v : α),
    (∀ kv ∈ l, P kv.2) → P v → ∀ kv ∈ pyDictInsert l k v, P kv.2 := by
  intro l
  induction l with
  | nil =>
      intro k v _ hv kv hkv
      simp [pyDictInsert] at hkv
      subst hkv
      exact hv
  | cons p t ih =>
      obtain ⟨k0, v0⟩ := p
      intro k v hl hv kv hkv
      rw [pyDictInsert] at hkv
      by_cases hk : k0 = k
      · rw [if_pos hk] at hkv
        rcases List.mem_cons.mp hkv with rfl | hkv
        · exact hv
        · exact hl kv (List.mem_cons_of_mem _ hkv)
      · rw [if_neg hk] at hkv
        rcases List.mem_cons.mp hkv with rfl | hkv
        · exact hl (k0, v0) (List.mem_cons_self _ _)
        · exact ih k v (fun x hx => hl x (List.mem_cons_of_mem _ hx)) hv kv hkv

theorem buildEV_fold : ∀ (keys : List String) (st : List (String × Int) × PyFloat),
    (∀ kv ∈ st.1, 1000 ≤ kv.2) →
    ∀ kv ∈ (keys.foldl (fun st key =>
        (pyDictInsert st.1 key (max 1000 st.2.trunc), st.2.mul decayFactor)) st).1,
      1000 ≤ kv.2 := by
  intro keys
  induction keys with
  | nil => intro st h; exact h
  | cons key rest ih =>
      intro st h
      rw [List.foldl_cons]
      exact ih _ (pyDictInsert_values _ st.1 key _ h (le_max_left _ _))

theorem buildEV_values (base : Int) (t : Date) :
    ∀ kv ∈ build_estimated_visits base t, 1000 ≤ kv.2 := by
  unfold build_estimated_visits
  exact buildEV_fold _ _ (by simp)

theorem replaceDay1_year (d : Date) : (replaceDay1 d).year = d.year := rfl

theorem replaceDay1_month (d : Date) : (replaceDay1 d).month = d.month := rfl

/-- **C2** (amended).  For any wall-clock date with a valid month and a
year in the `datetime` range, the keys of the `estimatedMonthlyVisits`
mapping built by `_build_estimated_visits` are the `"YYYY-MM-01"` strings
of the current month, the month 30 days before its first day, and the
month 60 days before it — in that order, so the insertion order is
newest-to-oldest (strictly decreasing month index from the first to the
second key, non-increasing afterwards), not oldest-to-newest; the 60-day
key can collide with the 30-day key (after February), in which case the
mapping has only those 2 distinct keys; and every value is at least
1000. -/
theorem claim_C2_amended (base : Int) (t : Date)
    (hm1 : 1 ≤ t.month) (hm2 : t.month ≤ 12)
    (hy1 : 2 ≤ t.year) (hy2 : t.year ≤ 9999) :
    ((build_estimated_visits base t).map Prod.fst =
      if fmtMonth (replaceDay1 (subDays (replaceDay1 t) 30)) =
          fmtMonth (replaceDay1 (subDays (replaceDay1 t) 60)) then
        [fmtMonth (replaceDay1 t),
         fmtMonth (replaceDay1 (subDays (replaceDay1 t) 30))]
      else
        [fmtMonth (replaceDay1 t),
         fmtMonth (replaceDay1 (subDays (replaceDay1 t) 30)),
         fmtMonth (replaceDay1 (subDays (replaceDay1 t) 60))]) ∧
    ymIdx (replaceDay1 (subDays (replaceDay1 t) 30)) < ymIdx (replaceDay1 t) ∧
    ymIdx (replaceDay1 (subDays (replaceDay1 t) 60)) ≤
      ymIdx (replaceDay1 (subDays (replaceDay1 t) 30)) ∧
    ∀ kv ∈ build_estimated_visits base t, 1000 ≤ kv.2 := by
  obtain ⟨s1, s2, s3, s4⟩ := subDays_facts 30 (replaceDay1 t) hm1 hm2
  have hlt30 : ymIdx (subDays (replaceDay1 t) 30) < ymIdx (replaceDay1 t) :=
    subDays30_lt (replaceDay1 t) hm1 hm2 rfl
  have h60 : subDays (subDays (replaceDay1 t) 30) 30 = subDays (replaceDay1 t) 60 := by
    rw [subDays_append]
  obtain ⟨u1, u2, u3, u4⟩ := subDays_facts 30 (subDays (replaceDay1 t) 30) s1 s2
  rw [h60] at u1 u2 u3 u4
  have s4' : (subDays (replaceDay1 t) 30).year ≤ t.year := by
    have := s4
    rw [replaceDay1_year] at this
    exact this
  have hyl30 : t.year - 1 ≤ (subDays (replaceDay1 t) 30).year :=
    subDays_year_lb 30 (replaceDay1 t) (by omega) hm1 hm2
  have hyl60 : t.year - 1 ≤ (subDays (replaceDay1 t) 60).year :=
    subDays_year_lb 60 (replaceDay1 t) (by omega) hm1 hm2
  have hyu60 : (subDays (replaceDay1 t) 60).year ≤ t.year := le_trans u4 s4'
  have hlt60 : ymIdx (subDays (replaceDay1 t) 60) < ymIdx (replaceDay1 t) :=
    lt_of_le_of_lt u3 hlt30
  have hlt30n : 12 * (subDays (replaceDay1 t) 30).year +
      ((subDays (replaceDay1 t) 30).month : Int) < 12 * t.year + t.month := by
    have := hlt30
    simp only [ymIdx, replaceDay1_year, replaceDay1_month] at this
    exact this
  have hlt60n : 12 * (subDays (replaceDay1 t) 60).year +
      ((subDays (replaceDay1 t) 60).month : Int) < 12 * t.year + t.month := by
    have := hlt60
    simp only [ymIdx, replaceDay1_year, replaceDay1_month] at this
    exact this
  have hk01 : fmtMonth (replaceDay1 t) ≠
      fmtMonth (replaceDay1 (subDays (replaceDay1 t) 30)) := by
    intro he
    obtain ⟨ey, em⟩ := fmtMonth_inj (replaceDay1 t)
      (replaceDay1 (subDays (replaceDay1 t) 30))
      (by rw [replaceDay1_year]; omega) (by rw [replaceDay1_year]; omega)
      (by rw [replaceDay1_month]; omega)
      (by rw [replaceDay1_year]; omega) (by rw [replaceDay1_year]; omega)
      (by rw [replaceDay1_month]; omega) he
    simp only [replaceDay1_year] at ey
    simp only [replaceDay1_month] at em
    omega
  have hk02 : fmtMonth (replaceDay1 t) ≠
      fmtMonth (replaceDay1 (subDays (replaceDay1 t) 60)) := by
    intro he
    obtain ⟨ey, em⟩ := fmtMonth_inj (replaceDay1 t)
      (replaceDay1 (subDays (replaceDay1 t) 60))
      (by rw [replaceDay1_year]; omega) (by rw [replaceDay1_year]; omega)
      (by rw [replaceDay1_month]; omega)
      (by rw [replaceDay1_year]; omega) (by rw [replaceDay1_year]; omega)
      (by rw [replaceDay1_month]; omega) he
    simp only [replaceDay1_year] at ey
    simp only [replaceDay1_month] at em
    omega
  have goal2 : ymIdx (replaceDay1 (subDays (replaceDay1 t) 30)) < ymIdx (replaceDay1 t) := by
    rw [ymIdx_replaceDay1 (subDays (replaceDay1 t) 30)]
    exact hlt30
  have goal3 : ymIdx (replaceDay1 (subDays (replaceDay1 t) 60)) ≤
      ymIdx (replaceDay1 (subDays (replaceDay1 t) 30)) := by
    rw [ymIdx_replaceDay1 (subDays (replaceDay1 t) 60),
      ymIdx_replaceDay1 (subDays (replaceDay1 t) 30)]
    exact u3
  have hmk0 : monthKey t 0 = fmtMonth (replaceDay1 t) := by
    unfold monthKey
    rw [show 30 * 0 = 0 from rfl]
    rw [show subDays (replaceDay1 t) 0 = replaceDay1 t from rfl]
    rw [show replaceDay1 (replaceDay1 t) = replaceDay1 t from rfl]
  have hmk1 : monthKey t 1 = fmtMonth (replaceDay1 (subDays (replaceDay1 t) 30)) := by
    unfold monthKey
    rw [show 30 * 1 = 30 from rfl]
  have hmk2 : monthKey t 2 = fmtMonth (replaceDay1 (subDays (replaceDay1 t) 60)) := by
    unfold monthKey
    rw [show 30 * 2 = 60 from rfl]
  refine ⟨?_, goal2, goal3, buildEV_values base t⟩
  unfold build_estimated_visits
  simp only [List.map_cons, List.map_nil, List.reverse_cons, List.reverse_nil,
    List.nil_append, List.cons_append, List.foldl_cons, List.foldl_nil]
  rw [hmk0, hmk1, hmk2]
  by_cases h12 : fmtMonth (replaceDay1 (subDays (replaceDay1 t) 30)) =
      fmtMonth (replaceDay1 (subDays (replaceDay1 t) 60))
  · rw [if_pos h12]
    simp only [pyDictInsert, if_neg hk01, if_neg hk02, if_pos h12,
      List.map_cons, List.map_nil]
  · rw [if_neg h12]
    simp only [pyDictInsert, if_neg hk01, if_neg hk02, if_neg h12,
      List.map_cons, List.map_nil]

/-- **C2** (counterexample).  On 2024-03-15 (a leap year, March) the
mapping has 2 keys, not 3: 30 days before 2024-03-01 is 2024-01-31, so
both back-steps land in January and February is skipped; moreover the
keys run newest-first (2024-03 before 2024-01), refuting the claimed
strictly increasing oldest-to-newest insertion order. -/
theorem claim_C2_cex :
    (build_estimated_visits 5000 ⟨2024, 3, 15⟩).map Prod.fst =
      ["2024-03-01", "2024-01-01"] ∧
    ((build_estimated_visits 5000 ⟨2024, 3, 15⟩).map Prod.fst).length ≠ 3 := by
  constructor
  · rfl
  · decide

/-- **C2** (witness).  On 2025-10-12 the hypotheses hold and the amended
theorem evaluates to the three distinct keys 2025-10-01, 2025-09-01,
2025-08-01, inserted newest first. -/
theorem claim_C2_witness :
    ((1 : Nat) ≤ 10 ∧ (10 : Nat) ≤ 12 ∧ (2 : Int) ≤ 2025 ∧ (2025 : Int) ≤ 9999) ∧
    (build_estimated_visits 5000 ⟨2025, 10, 12⟩).map Prod.fst =
      ["2025-10-01", "2025-09-01", "2025-08-01"] := by
  refine ⟨⟨by decide, by decide, by decide, by decide⟩, ?_⟩
  have h := (claim_C2_amended 5000 ⟨2025, 10, 12⟩ (by decide) (by decide)
    (by decide) (by decide)).1
  rw [h]
  rfl

/-- FIPS 180-4 test vector for the string abc, pinning the SHA-256
embedding against `hashlib.sha256`. -/
theorem hash_to_int_abc : hash_to_int (codesOf "abc") = 0xba7816bf8f01 := by
  decide

/-- `_hash_to_int("example.com")`, cross-checked against the Python
implementation. -/
theorem hash_to_int_example_com :
    hash_to_int (codesOf "example.com") = 0xa379a6f6eeaf := by
  decide

/-! ### C10: booleans and the numeric filters -/

/-- An entry with a key not yet present is appended by `pyDictInsert`. -/
theorem pyDictInsert_fresh {α : Type} : ∀ (l : List (String × α)) (k : String) (v : α),
    k ∉ l.map Prod.fst → pyDictInsert l k v = l ++ [(k, v)] := by
  intro l
  induction l with
  | nil => intro k v _; rfl
  | cons p0 t ih =>
      obtain ⟨k0, v0⟩ := p0
      intro k v hk
      simp only [List.map_cons, List.mem_cons, not_or] at hk
      obtain ⟨hk1, hk2⟩ := hk
      rw [pyDictInsert, if_neg (fun h => hk1 h.symm), ih k v hk2]
      rfl

/-- Entries with a different key survive `pyDictInsert`. -/
theorem pyDictInsert_mem_of_ne {α : Type} : ∀ (l : List (String × α)) (k : String) (v : α)
    (x : String × α), x ∈ l → x.1 ≠ k → x ∈ pyDictInsert l k v := by
  intro l
  induction l with
  | nil => intro k v x hx _; exact absurd hx (List.not_mem_nil _)
  | cons p0 t ih =>
      obtain ⟨k0, v0⟩ := p0
      intro k v x hx hne
      rw [pyDictInsert]
      by_cases hk : k0 = k
      · rw [if_pos hk]
        rcases List.mem_cons.mp hx with rfl | hx2
        · exact absurd hk hne
        · exact List.mem_cons_of_mem _ hx2
      · rw [if_neg hk]
        rcases List.mem_cons.mp hx with rfl | hx2
        · exact List.mem_cons_self _ _
        · exact List.mem_cons_of_mem _ (ih k v x hx2 hne)

/-- A dict-comprehension loop of the shape `if p v: out[f k] = val v` never
drops an already-produced entry whose key differs from all remaining key
images. -/
theorem dictFold_mono (p : Json → Bool) (f : String → String) (val : Json → Json) :
    ∀ (kvs acc : List (String × Json)) (x : String × Json),
    x ∈ acc → (∀ kv ∈ kvs, f kv.1 ≠ x.1) →
    x ∈ kvs.foldl
      (fun a kv => if p kv.2 then pyDictInsert a (f kv.1) (val kv.2) else a) acc := by
  intro kvs
  induction kvs with
  | nil => intro acc x hx _; exact hx
  | cons kv0 t ih =>
      obtain ⟨k0, v0⟩ := kv0
      intro acc x hx hne
      rw [List.foldl_cons]
      refine ih _ x ?_ (fun kv hkv => hne kv (List.mem_cons_of_mem _ hkv))
      dsimp only
      by_cases hp0 : p v0 = true
      · rw [if_pos hp0]
        exact pyDictInsert_mem_of_ne acc (f k0) (val v0) x hx
          (Ne.symm (hne (k0, v0) (List.mem_cons_self _ _)))
      · rw [if_neg hp0]
        exact hx

/-- In a dict-comprehension loop over entries with `Nodup` key images, every
entry passing the filter `p` appears in the output under its transformed key
with its coerced value. -/
theorem dictFold_mem (p : Json → Bool) (f : String → String) (val : Json → Json) :
    ∀ (kvs acc : List (String × Json)) (k : String) (v : Json),
    (k, v) ∈ kvs → p v = true →
    (kvs.map fun kv => f kv.1).Nodup →
    (∀ kv ∈ kvs, f kv.1 ∉ acc.map Prod.fst) →
    (f k, val v) ∈ kvs.foldl
      (fun a kv => if p kv.2 then pyDictInsert a (f kv.1) (val kv.2) else a) acc := by
  intro kvs
  induction kvs with
  | nil => intro acc k v hm; exact absurd hm (List.not_mem_nil _)
  | cons kv0 t ih =>
      obtain ⟨k0, v0⟩ := kv0
      intro acc k v hm hp hnd hfr
      simp only [List.map_cons, List.nodup_cons] at hnd
      obtain ⟨hnd1, hnd2⟩ := hnd
      rw [List.foldl_cons]
      rcases List.mem_cons.mp hm with heq | hmem2
      · injection heq with h1 h2
        subst h1
        subst h2
        dsimp only
        rw [if_pos hp,
          pyDictInsert_fresh acc (f k) (val v) (hfr (k, v) (List.mem_cons_self _ _))]
        refine dictFold_mono p f val t (acc ++ [(f k, val v)]) (f k, val v)
          (List.mem_append_right _ (List.mem_cons_self _ _)) ?_
        intro kv hkv hco
        have hco2 : f kv.1 = f k := hco
        exact hnd1 (by rw [← hco2]; exact List.mem_map.mpr ⟨kv, hkv, rfl⟩)
      · refine ih _ k v hmem2 hp hnd2 ?_
        intro kv hkv
        dsimp only
        by_cases hp0 : p v0 = true
        · rw [if_pos hp0]
          rw [pyDictInsert_fresh acc (f k0) (val v0) (hfr (k0, v0) (List.mem_cons_self _ _))]
          rw [List.map_append]
          intro hin
          rcases List.mem_append.mp hin with h1 | h2
          · exact hfr kv (List.mem_cons_of_mem _ hkv) h1
          · simp only [List.map_cons, List.map_nil, List.mem_singleton] at h2
            exact hnd1 (by rw [← h2]; exact List.mem_map.mpr ⟨kv, hkv, rfl⟩)
        · rw [if_neg hp0]
          exact hfr kv (List.mem_cons_of_mem _ hkv)

/-- `countryStep` on a dict entry always succeeds and keeps every
already-accumulated record. -/
theorem countryStep_obj : ∀ (acc : List Json) (kvs : List (String × Json)),
    ∃ acc2, countryStep acc (.obj kvs) = .ok acc2 ∧ ∀ x ∈ acc, x ∈ acc2 := by
  intro acc kvs
  refine ⟨_, rfl, ?_⟩
  intro x hx
  split
  · exact List.mem_append_left _ hx
  · exact hx

/-- Accumulated records survive the rest of the `top_countries` loop when
all remaining entries are dicts. -/
theorem countryFold_mono : ∀ (cs : List Json) (acc out : List Json),
    (∀ x ∈ cs, x.isObj = true) → foldE countryStep acc cs = .ok out →
    ∀ x ∈ acc, x ∈ out := by
  intro cs
  induction cs with
  | nil =>
      intro acc out _ h x hx
      rw [foldE] at h
      injection h with h2
      rw [← h2]
      exact hx
  | cons c0 t ih =>
      intro acc out hobjs h x hx
      obtain ⟨kvs0, rfl⟩ := isObj_exists c0 (hobjs c0 (List.mem_cons_self _ _))
      obtain ⟨acc2, hstep0, hsub⟩ := countryStep_obj acc kvs0
      rw [foldE, hstep0] at h
      exact ih acc2 out (fun y hy => hobjs y (List.mem_cons_of_mem _ hy)) h x (hsub x hx)

/-- The record built from a truthy `country_code` and a boolean `share` is
in the `top_countries` loop's output (all entries dicts, so no raise). -/
theorem countryFold_mem : ∀ (cs : List Json) (acc : List Json),
    (∀ x ∈ cs, x.isObj = true) →
    ∀ c ∈ cs, ∀ (code : Json) (b : Bool),
    jsonLookup c "country_code" = some code → pyTruthy code = true →
    jsonLookup c "share" = some (.bool b) →
    ∃ out, foldE countryStep acc cs = .ok out ∧
      Json.obj [("CountryCode", code),
        ("Value", Json.float (pyFloatNum (Json.bool b)))] ∈ out := by
  intro cs
  induction cs with
  | nil => intro acc _ c hc; exact absurd hc (List.not_mem_nil _)
  | cons c0 t ih =>
      intro acc hobjs c hc code b hcode htr hshare
      obtain ⟨kvs0, rfl⟩ := isObj_exists c0 (hobjs c0 (List.mem_cons_self _ _))
      have hobjt : ∀ x ∈ t, x.isObj = true := fun y hy => hobjs y (List.mem_cons_of_mem _ hy)
      rcases List.mem_cons.mp hc with rfl | hct
      · have hcode2 : List.lookup "country_code" kvs0 = some code := hcode
        have hshare2 : List.lookup "share" kvs0 = some (Json.bool b) := hshare
        have hcond : (pyTruthy ((List.lookup "country_code" kvs0).getD .null) &&
            isNumber ((List.lookup "share" kvs0).getD .null)) = true := by
          rw [hcode2, hshare2]
          simp only [Option.getD_some]
          rw [htr]
          rfl
        have hstep : countryStep acc (Json.obj kvs0) = .ok (acc ++
            [Json.obj [("CountryCode", (List.lookup "country_code" kvs0).getD .null),
              ("Value", Json.float (pyFloatNum ((List.lookup "share" kvs0).getD .null)))]]) := by
          have h0 : countryStep acc (Json.obj kvs0) = .ok
              (if pyTruthy ((List.lookup "country_code" kvs0).getD .null) &&
                  isNumber ((List.lookup "share" kvs0).getD .null) then
                acc ++ [Json.obj [("CountryCode", (List.lookup "country_code" kvs0).getD .null),
                  ("Value", Json.float (pyFloatNum ((List.lookup "share" kvs0).getD .null)))]]
              else acc) := rfl
          rw [h0, if_pos hcond]
        rw [hcode2, hshare2] at hstep
        simp only [Option.getD_some] at hstep
        obtain ⟨out, hout⟩ := countryFold_ok t (acc ++
          [Json.obj [("CountryCode", code),
            ("Value", Json.float (pyFloatNum (Json.bool b)))]]) hobjt
        refine ⟨out, ?_, ?_⟩
        · rw [foldE, hstep]
          exact hout
        · exact countryFold_mono t _ out hobjt hout _
            (List.mem_append_right _ (List.mem_cons_self _ _))
      · obtain ⟨acc2, hstep0, _⟩ := countryStep_obj acc kvs0
        obtain ⟨out, hout, hmem2⟩ := ih acc2 hobjt c hct code b hcode htr hshare
        refine ⟨out, ?_, hmem2⟩
        rw [foldE, hstep0]
        exact hout

/--
**C10.** In remote normalization, boolean payload values pass the
`isinstance(v, (int, float))` filters (Python `bool` is a subclass of
`int`), universally over payloads and boolean values: in any payload whose
`traffic.estimated_monthly_visits` node is a dict with distinct keys, an
entry with boolean value `b` is kept and coerced to the integer 1
(`True`) or 0 (`False`); in any payload whose `traffic.sources` node is a
dict with distinct title-cased key images, a boolean entry is kept under
the title-cased key and coerced to the float 1.0 or 0.0; and in any
payload whose `audience.top_countries` node is a list of dicts, every
entry with a truthy `country_code` and a boolean `share` contributes its
record with the share coerced to the float 1.0 or 0.0.  (Distinct keys
reflect JSON objects — a later duplicate key would overwrite the entry,
in Python as here; the all-dicts hypothesis keeps the loop from raising,
see C3.)
-/
theorem claim_C10 (raw : Json) :
    (∀ (kvs : List (String × Json)) (k : String) (b : Bool),
      g raw "traffic.estimated_monthly_visits" (.obj []) = .obj kvs →
      (kvs.map Prod.fst).Nodup →
      (k, Json.bool b) ∈ kvs →
      ∃ out, normVisits raw = .ok out ∧
        (k, Json.int (if b then 1 else 0)) ∈ out) ∧
    (∀ (kvs : List (String × Json)) (k : String) (b : Bool),
      g raw "traffic.sources" (.obj []) = .obj kvs →
      (kvs.map fun kv => pyTitle kv.1).Nodup →
      (k, Json.bool b) ∈ kvs →
      ∃ out, normSources raw = .ok out ∧
        (pyTitle k, Json.float (if b then ⟨1, 1⟩ else ⟨0, 1⟩)) ∈ out) ∧
    (∀ (cs : List Json) (c : Json) (code : Json) (b : Bool),
      g raw "audience.top_countries" (.arr []) = .arr cs →
      (∀ x ∈ cs, x.isObj = true) →
      c ∈ cs →
      jsonLookup c "country_code" = some code →
      pyTruthy code = true →
      jsonLookup c "share" = some (Json.bool b) →
      ∃ out, normCountries raw = .ok out ∧
        Json.obj [("CountryCode", code),
          ("Value", Json.float (if b then ⟨1, 1⟩ else ⟨0, 1⟩))] ∈ out) := by
  refine ⟨?_, ?_, ?_⟩
  · intro kvs k b hg hnd hmem
    have htr : pyTruthy (Json.obj kvs) = true := by
      cases kvs with
      | nil => exact absurd hmem (List.not_mem_nil _)
      | cons hd tl => rfl
    have hpy : pyOr (Json.obj kvs) (Json.obj []) = Json.obj kvs := by
      unfold pyOr
      exact if_pos htr
    unfold normVisits
    dsimp only
    rw [hg, hpy]
    refine ⟨_, rfl, ?_⟩
    exact dictFold_mem isNumber (fun s => s) (fun v => Json.int (pyIntNum v)) kvs [] k
      (Json.bool b) hmem rfl hnd (fun kv _ hin => absurd hin (List.not_mem_nil _))
  · intro kvs k b hg hnd hmem
    have htr : pyTruthy (Json.obj kvs) = true := by
      cases kvs with
      | nil => exact absurd hmem (List.not_mem_nil _)
      | cons hd tl => rfl
    have hpy : pyOr (Json.obj kvs) (Json.obj []) = Json.obj kvs := by
      unfold pyOr
      exact if_pos htr
    unfold normSources
    dsimp only
    rw [hg, hpy]
    refine ⟨_, rfl, ?_⟩
    exact dictFold_mem isNumber pyTitle (fun v => Json.float (pyFloatNum v)) kvs [] k
      (Json.bool b) hmem rfl hnd (fun kv _ hin => absurd hin (List.not_mem_nil _))
  · intro cs c code b hg hobjs hc hcode htr hshare
    have htra : pyTruthy (Json.arr cs) = true := by
      cases cs with
      | nil => exact absurd hc (List.not_mem_nil _)
      | cons hd tl => rfl
    have hpy : pyOr (Json.arr cs) (Json.arr []) = Json.arr cs := by
      unfold pyOr
      exact if_pos htra
    unfold normCountries
    dsimp only
    rw [hg, hpy]
    obtain ⟨out, hout, hm⟩ := countryFold_mem cs [] hobjs c hc code b hcode htr hshare
    exact ⟨out, hout, hm⟩

/-- **C10** (witness).  A concrete payload with both `True` and `False`
booleans at the three positions: the visits entries are kept as integers 1
and 0, the `direct` source is kept as `Direct` with float 0.0, and the DE
share is kept as float 0.0. -/
theorem claim_C10_witness :
    (∃ out, normVisits c10payload = .ok out ∧ ("2024-01-01", Json.int 1) ∈ out) ∧
    (∃ out, normVisits c10payload = .ok out ∧ ("2024-02-01", Json.int 0) ∈ out) ∧
    (∃ out, normSources c10payload = .ok out ∧ ("Direct", Json.float ⟨0, 1⟩) ∈ out) ∧
    (∃ out, normCountries c10payload = .ok out ∧
      Json.obj [("CountryCode", Json.str "DE"), ("Value", Json.float ⟨0, 1⟩)] ∈ out) :=
  ⟨(claim_C10 c10payload).1 _ "2024-01-01" true rfl (by decide)
      (List.mem_cons_self _ _),
   (claim_C10 c10payload).1 _ "2024-02-01" false rfl (by decide)
      (List.mem_cons_of_mem _ (List.mem_cons_self _ _)),
   (claim_C10 c10payload).2.1 _ "direct" false rfl (by decide)
      (List.mem_cons_of_mem _ (List.mem_cons_self _ _)),
   (claim_C10 c10payload).2.2 _
      (.obj [("country_code", .str "DE"), ("share", .bool false)])
      (.str "DE") false rfl (by decide)
      (List.mem_cons_of_mem _ (List.mem_cons_self _ _)) rfl (by decide) rfl⟩
